import Mathlib

set_option maxRecDepth 16000

/-!
Verification of the SQLite query generator
(`src/dialects/sqlite/query-generator.js`).

JavaScript strings are modelled as `List Char`; every string-valued helper of
the generator is translated to an executable Lean function on such lists.
Helpers that the generator calls but that live outside the analysed file
(`Utils.addTicks`, `Utils.removeTicks`, the abstract generator's `quoteTable`
and `escape`, `Transaction.ISOLATION_LEVELS`) are modelled at their interface,
each with a doc comment explaining the modelling.
-/

namespace SqliteQG

/-- JavaScript strings are modelled as lists of characters. -/
abbrev Str := List Char

/-- The backtick character, SQLite's identifier quoting character. -/
def tick : Char := Char.ofNat 96

/-- JS `String.prototype.includes(pat)` as a Bool (substring test). -/
def includesStr (pat s : Str) : Bool := decide (pat <:+: s)

/-- JS `String.prototype.replace(pat, rep)` with a plain-string pattern:
replaces the first occurrence of `pat` only (used by `createTableQuery`
for the `PRIMARY KEY` marker). For an absent pattern the string is
returned unchanged. -/
def replaceFirst (pat rep : Str) : Str → Str
  | [] => []
  | c :: rest =>
    if pat <+: c :: rest then rep ++ (c :: rest).drop pat.length
    else c :: replaceFirst pat rep rest

/-- JS `s.slice(s.indexOf(pat))`: the suffix of `s` starting at the first
occurrence of `pat`. The generator only evaluates this under an
`s.includes(pat)` guard, so the absent-pattern edge case (JS would return
the last character via `slice(-1)`) is never exercised; here it yields `[]`. -/
def fromFirst (pat : Str) : Str → Str
  | [] => []
  | c :: rest => if pat <+: c :: rest then c :: rest else fromFirst pat rest

/-- JS `Array.prototype.join(sep)`. -/
def joinSep (sep : Str) : List Str → Str
  | [] => []
  | [x] => x
  | x :: y :: rest => x ++ sep ++ joinSep sep (y :: rest)

/-- Splits a generated script at every semicolon (the statement separator);
a trailing semicolon produces a trailing empty piece, as in
`String.prototype.split(';')`. -/
def splitSemi : Str → List Str
  | [] => [[]]
  | c :: rest =>
    if c = ';' then [] :: splitSemi rest
    else
      match splitSemi rest with
      | s :: ss => (c :: s) :: ss
      | [] => [[c]]

/-- Modelled from the spec: `Utils.removeTicks(s, tickChar)` — the utils module
is not under src/. Per its name, its use in `quoteIdentifier` and in
`truncateTableQuery` (line 267), it removes every occurrence of the tick
character (`s.replace(new RegExp(tickChar, 'g'), '')`). -/
def removeTicks (s : Str) (t : Char) : Str := s.filter (fun c => !(c == t))

/-- Modelled from the spec: `Utils.addTicks(s, tickChar)` — the utils module is
not under src/. It wraps `s` in the tick character, first removing embedded
occurrences (`tickChar + removeTicks(s, tickChar) + tickChar`). -/
def addTicks (s : Str) (t : Char) : Str := t :: removeTicks s t ++ [t]

/-- `quoteIdentifier` (query-generator.js lines 526-528):
`Utils.addTicks(Utils.removeTicks(identifier, tick), tick)`. -/
def quoteIdentifier (identifier : Str) : Str :=
  addTicks (removeTicks identifier tick) tick

/-- Modelled from the spec: the abstract generator's `quoteTable` (not under
src/) quotes a bare table name as an identifier. Schema-qualified table
objects are out of scope here (the SQLite dialect rejects schemas). -/
def quoteTable (tableName : Str) : Str := quoteIdentifier tableName

/-! ### Boolean default rewriting (`replaceBooleanDefaults`, lines 490-492)

`sql.replace(/DEFAULT '?false'?/g, 'DEFAULT 0').replace(/DEFAULT '?true'?/g, 'DEFAULT 1')`.

`matchBoolDefault w s` attempts the regex `DEFAULT '?<w>'?` at the head of
`s` (with the regex engine's greedy optional quotes and backtracking) and
returns the remainder after the match. `replaceBoolWordF` is the global
replacement pass, written with explicit fuel so that it is structurally
recursive; every match consumes at least the eight characters of
`DEFAULT `, so fuel `s.length` always suffices. -/

/-- Drops the literal pattern `p` from the head of `s`, if present. -/
def eatLead : Str → Str → Option Str
  | [], s => some s
  | _ :: _, [] => none
  | p :: ps, c :: cs => if c = p then eatLead ps cs else none

/-- The literal `DEFAULT ` (with trailing space) that starts each
boolean-default pattern. -/
def defaultSp : Str := "DEFAULT ".data

/-- Consumes the greedy optional closing quote `'?` of the pattern. -/
def eatOptQuote : Str → Str
  | c :: rest => if c = '\'' then rest else c :: rest
  | [] => []

/-- The part of the pattern after the literal `DEFAULT `: greedy optional
quote, the word `w`, greedy optional quote. If a quote is present the engine
first tries to consume it and only backtracks to the unquoted alternative
(`Option.orElse`) when `w` then fails. -/
def matchAfterDefault (w : Str) : Str → Option Str
  | c :: t2 =>
    if c = '\'' then
      ((eatLead w t2).map eatOptQuote).orElse
        (fun _ => (eatLead w (c :: t2)).map eatOptQuote)
    else (eatLead w (c :: t2)).map eatOptQuote
  | [] => (eatLead w []).map eatOptQuote

/-- One attempted match of `/DEFAULT '?<w>'?/` at the head of `s`; `some t`
means the pattern matched and `t` is the text after the match. -/
def matchBoolDefault (w : Str) (s : Str) : Option Str :=
  (eatLead defaultSp s).bind (matchAfterDefault w)

/-- Whether `/DEFAULT '?<w>'?/` matches anywhere in `s`. -/
def hasBoolDefault (w : Str) : Str → Bool
  | [] => false
  | c :: rest => (matchBoolDefault w (c :: rest)).isSome || hasBoolDefault w rest

/-- Fuelled global replacement of `/DEFAULT '?<w>'?/g` by `r`, scanning left
to right and continuing after each match, as `String.prototype.replace`
with the `g` flag does. -/
def replaceBoolWordF (w r : Str) : Nat → Str → Str
  | _, [] => []
  | 0, s => s
  | fuel + 1, c :: rest =>
    match matchBoolDefault w (c :: rest) with
    | some t => r ++ replaceBoolWordF w r fuel t
    | none => c :: replaceBoolWordF w r fuel rest

/-- Global replacement of `/DEFAULT '?<w>'?/g` by `r` in `s`. -/
def replaceBoolWord (w r s : Str) : Str := replaceBoolWordF w r s.length s

/-- `replaceBooleanDefaults` (lines 490-492). -/
def replaceBooleanDefaults (sql : Str) : Str :=
  replaceBoolWord "true".data "DEFAULT 1".data
    (replaceBoolWord "false".data "DEFAULT 0".data sql)

/-! ### `createTableQuery` (lines 26-95)

Attribute maps are modelled as association lists in insertion order: the
JS `for (const attr in attributes)` loop visits string keys of an object
literal in insertion order, and `Object.values` in the same order. The
`options` parameter is only defaulted and never read (the `uniqueKeys`
block is commented out in the source), so it is omitted. -/

/-- The `PRIMARY KEY` marker. -/
def pkMarker : Str := "PRIMARY KEY".data

/-- The `PRIMARY KEY` marker with its preceding space. -/
def spkMarker : Str := " PRIMARY KEY".data

/-- The `NOT NULL` marker. -/
def nnMarker : Str := "NOT NULL".data

/-- Line 30: more than one attribute definition contains `PRIMARY KEY`. -/
def needsMultiplePrimaryKeys (attributes : List (Str × Str)) : Bool :=
  1 < (attributes.filter (fun p => includesStr pkMarker p.2)).length

/-- Lines 40-47: the rewritten type string for an `INT` primary-key column
(`INTEGER PRIMARY KEY [AUTOINCREMENT]`, re-attaching a ` REFERENCES` tail). -/
def intPkTypeString (dataType : Str) : Str :=
  (if includesStr "AUTOINCREMENT".data dataType then
    "INTEGER PRIMARY KEY AUTOINCREMENT".data
   else "INTEGER PRIMARY KEY".data)
  ++ (if includesStr " REFERENCES".data dataType then
        fromFirst " REFERENCES".data dataType
      else [])

/-- Lines 36-57: the `dataTypeString` emitted for one column. When several
attributes carry the marker, a column that already contains `NOT NULL` has
its ` PRIMARY KEY` marker removed, and otherwise the marker is replaced by
`NOT NULL` (first occurrence in both cases, as JS `replace`). -/
def columnTypeString (needsMulti : Bool) (dataType : Str) : Str :=
  if includesStr pkMarker dataType then
    let base :=
      if includesStr "INT".data dataType then intPkTypeString dataType else dataType
    if needsMulti then
      if includesStr nnMarker dataType then replaceFirst spkMarker [] dataType
      else replaceFirst pkMarker nnMarker dataType
    else base
  else dataType

/-- Line 59: the `attrArray` of quoted-name/type column definitions. -/
def attrArrayOf (needsMulti : Bool) (attributes : List (Str × Str)) : List Str :=
  attributes.map (fun p => quoteIdentifier p.1 ++ ' ' :: columnTypeString needsMulti p.2)

/-- Lines 29 and 49-50: the names collected into `primaryKeys`, in
declaration order (only collected when several attributes carry the marker). -/
def primaryKeysOf (attributes : List (Str × Str)) : List Str :=
  if needsMultiplePrimaryKeys attributes then
    (attributes.filter (fun p => includesStr pkMarker p.2)).map Prod.fst
  else []

/-- Line 65: `pkString`. -/
def pkStringOf (attributes : List (Str × Str)) : Str :=
  joinSep ", ".data ((primaryKeysOf attributes).map quoteIdentifier)

/-- Lines 64 and 88-90: `attrStr`, with the trailing `PRIMARY KEY (...)`
table constraint appended when `pkString` is non-empty. -/
def attrStrOf (attributes : List (Str × Str)) : Str :=
  let base := joinSep ", ".data (attrArrayOf (needsMultiplePrimaryKeys attributes) attributes)
  if 0 < (pkStringOf attributes).length then
    base ++ ", PRIMARY KEY (".data ++ pkStringOf attributes ++ [')']
  else base

/-- Line 92: the `sql` local, before the boolean-default pass. -/
def createTableRawSql (tableName : Str) (attributes : List (Str × Str)) : Str :=
  "CREATE TABLE IF NOT EXISTS ".data ++ quoteTable tableName ++ " (".data
    ++ attrStrOf attributes ++ ");".data

/-- `createTableQuery` (lines 26-95). -/
def createTableQuery (tableName : Str) (attributes : List (Str × Str)) : Str :=
  replaceBooleanDefaults (createTableRawSql tableName attributes)

/-! ### Table recreation (`removeColumnQuery` lines 388-410,
`renameColumnQuery` lines 438-465) -/

/-- Lines 392-400 (string table names): the backup table name. -/
def backupName (tableName : Str) : Str := tableName ++ "_backup".data

/-- `attributesToSQL` (lines 287-348) restricted to raw-string attribute
definitions, the branch all claims exercise: a string definition is passed
through unchanged under its attribute name (strings have no `field`
property). The object branch renders a definition record via the abstract
generator's `escape`, which is outside src/ and not modelled. -/
def attributesToSQL (attributes : List (Str × Str)) : List (Str × Str) :=
  attributes.map (fun p => (p.1, p.2))

/-- `removeColumnQuery` (lines 388-410): create the backup table from the
post-removal attribute set, copy the surviving columns over, drop the
original, rename the backup to the original. -/
def removeColumnQuery (tableName : Str) (attributes : List (Str × Str)) : Str :=
  let attrs := attributesToSQL attributes
  let quotedTableName := quoteTable tableName
  let quotedBackupTableName := quoteTable (backupName tableName)
  let attributeNames := joinSep ", ".data ((attrs.map Prod.fst).map quoteIdentifier)
  createTableQuery (backupName tableName) attrs
    ++ "INSERT INTO ".data ++ quotedBackupTableName ++ " SELECT ".data
    ++ attributeNames ++ " FROM ".data ++ quotedTableName ++ [';']
    ++ "DROP TABLE ".data ++ quotedTableName ++ [';']
    ++ "ALTER TABLE ".data ++ quotedBackupTableName ++ " RENAME TO ".data
    ++ quotedTableName ++ [';']

/-- `renameColumnQuery` (lines 438-465): create the backup table, copy with
the renamed column aliased (`old AS new`), drop the original, re-create the
original from the post-change attribute set, copy everything back, and drop
the backup. The source emits no `ALTER TABLE ... RENAME TO` here. -/
def renameColumnQuery (tableName attrNameBefore attrNameAfter : Str)
    (attributes : List (Str × Str)) : Str :=
  let attrs := attributesToSQL attributes
  let quotedTableName := quoteTable tableName
  let quotedBackupTableName := quoteTable (backupName tableName)
  let attributeNamesImport := joinSep ", ".data (attrs.map (fun p =>
    if attrNameAfter = p.1 then
      quoteIdentifier attrNameBefore ++ " AS ".data ++ quoteIdentifier p.1
    else quoteIdentifier p.1))
  let attributeNamesExport := joinSep ", ".data (attrs.map (fun p => quoteIdentifier p.1))
  createTableQuery (backupName tableName) attrs
    ++ "INSERT INTO ".data ++ quotedBackupTableName ++ " SELECT ".data
    ++ attributeNamesImport ++ " FROM ".data ++ quotedTableName ++ [';']
    ++ "DROP TABLE ".data ++ quotedTableName ++ [';']
    ++ createTableQuery tableName attrs
    ++ "INSERT INTO ".data ++ quotedTableName ++ " SELECT ".data
    ++ attributeNamesExport ++ " FROM ".data ++ quotedBackupTableName ++ [';']
    ++ "DROP TABLE ".data ++ quotedBackupTableName ++ [';']

/-! ### `updateQuery` (lines 217-262) and `deleteQuery` (lines 271-285) -/

/-- JS whitespace test used by `String.prototype.trim`. -/
def isWsCh (c : Char) : Bool :=
  c = ' ' || c = '\t' || c = '\n' || c = '\r' || c = '\x0b' || c = '\x0c'

/-- JS `String.prototype.trim`. -/
def trimStr (s : Str) : Str :=
  ((s.dropWhile isWsCh).reverse.dropWhile isWsCh).reverse

/-- Decimal digit characters. -/
def digitChar : Nat → Char
  | 0 => '0'
  | 1 => '1'
  | 2 => '2'
  | 3 => '3'
  | 4 => '4'
  | 5 => '5'
  | 6 => '6'
  | 7 => '7'
  | 8 => '8'
  | _ => '9'

/-- Fuelled decimal rendering of a natural number. -/
def natDigitsF : Nat → Nat → Str
  | 0, _ => []
  | fuel + 1, n =>
    if n < 10 then [digitChar n]
    else natDigitsF fuel (n / 10) ++ [digitChar (n % 10)]

/-- Modelled from the spec: `this.escape(options.limit)` — the escaper lives
in the abstract generator, outside src/. For an integer limit it renders the
decimal literal. -/
def escNat (n : Nat) : Str := natDigitsF (n + 1) n

/-- `deleteQuery` (lines 271-285). `whereCond` is the already-rendered
condition text produced by `getWhereConditions` (abstract generator, outside
src/); `limit` is `options.limit`, where JS truthiness makes both an absent
and a zero limit fall into the unlimited branch. -/
def deleteQuery (tableName : Str) (whereCond : Str) (limit : Option Nat) : Str :=
  let whereClause₁ := if whereCond = [] then whereCond else "WHERE ".data ++ whereCond
  let whereClause₂ :=
    match limit with
    | some n =>
      if n ≠ 0 then
        "WHERE rowid IN (SELECT rowid FROM ".data ++ quoteTable tableName
          ++ ' ' :: whereClause₁ ++ " LIMIT ".data ++ escNat n ++ [')']
      else whereClause₁
    | none => whereClause₁
  trimStr ("DELETE FROM ".data ++ quoteTable tableName ++ ' ' :: whereClause₂)

/-- `updateQuery` (lines 217-262), restricted to the statement text (the
`bind` mapping is out of scope). `setValues` is the list of rendered
`column=value` fragments (rendering uses the abstract generator's
`escape`/`format`, outside src/), and `whereSql` the rendered `whereQuery`
output (empty or `WHERE ...`). -/
def updateQuery (tableName : Str) (setValues : List Str) (whereSql : Str)
    (limit : Option Nat) : Str :=
  match limit with
  | some n =>
    if n ≠ 0 then
      trimStr ("UPDATE ".data ++ quoteTable tableName ++ " SET ".data
        ++ joinSep [','] setValues
        ++ " WHERE rowid IN (SELECT rowid FROM ".data ++ quoteTable tableName
        ++ ' ' :: whereSql ++ " LIMIT ".data ++ escNat n ++ [')'])
    else
      trimStr ("UPDATE ".data ++ quoteTable tableName ++ " SET ".data
        ++ joinSep [','] setValues ++ ' ' :: whereSql)
  | none =>
    trimStr ("UPDATE ".data ++ quoteTable tableName ++ " SET ".data
      ++ joinSep [','] setValues ++ ' ' :: whereSql)

/-! ### `_checkValidJsonStatement` (lines 124-175)

The two anchored regexes are modelled as deterministic scanners:

* `jsonFunctionRegex = /^\s*(json(?:_[a-z]+){0,2})\([^)]*\)/i` — optional
  whitespace, the name `json` with up to two `_letters` groups (greedy, with
  backtracking on the group count), then `(`, non-`)` characters and `)`.
* `tokenCaptureRegex = /^\s*((?:(["'\x60])(?:(?!\2).|\2{2})*\2)|[\s\w]+|[()+,.;-])/i`
  — optional whitespace, then a quoted string (doubled quotes escape), a run
  of word/whitespace characters, or a single punctuation character.

`\s` and `\w` are modelled on the ASCII range, which covers every character
class the scanner distinguishes for the SQL texts under analysis. -/

/-- ASCII letter ([a-z] under the regex `i` flag). -/
def isAsciiLetter (c : Char) : Bool :=
  ('a' ≤ c && c ≤ 'z') || ('A' ≤ c && c ≤ 'Z')

/-- JS `\w`: `[A-Za-z0-9_]`. -/
def isWordCh (c : Char) : Bool :=
  isAsciiLetter c || ('0' ≤ c && c ≤ '9') || c = '_'

/-- ASCII lower-casing, for the regex `i` flag. -/
def lowerCh (c : Char) : Char :=
  if 'A' ≤ c ∧ c ≤ 'Z' then Char.ofNat (c.toNat + 32) else c

/-- Drops the pattern `p` from the head of `s`, comparing case-insensitively. -/
def eatLeadCI : Str → Str → Option Str
  | [], s => some s
  | _ :: _, [] => none
  | p :: ps, c :: cs => if lowerCh c = lowerCh p then eatLeadCI ps cs else none

/-- Length of the leading `\s*` run. -/
def wsCount (s : Str) : Nat := (s.takeWhile isWsCh).length

/-- One `(?:_[a-z]+)` group: an underscore followed by a maximal non-empty
letter run (shortening the greedy run can never help, since the characters
that may follow a group are `_` and `(`, neither of which is a letter). -/
def eatGroup : Str → Option Str
  | c :: rest =>
    if c = '_' then
      if (rest.takeWhile isAsciiLetter).length ≠ 0 then
        some (rest.dropWhile isAsciiLetter)
      else none
    else none
  | [] => none

/-- After the function name: `\([^)]*\)` succeeds iff the next character is
`(` and a `)` occurs afterwards. -/
def parenOk (t : Str) : Bool :=
  match t with
  | c :: rest => c = '(' && rest.contains ')'
  | [] => false

/-- Picks the first group-count candidate whose remainder passes `parenOk`,
returning the recorded advance (the regex tries the greedy two-group parse
first and backtracks to fewer groups). -/
def pickParen : List (Str × Nat) → Option Nat
  | [] => none
  | (t, adv) :: rest => if parenOk t then some adv else pickParen rest

/-- `jsonFunctionRegex` at the head of `s`; `some adv` gives
`functionMatches[0].indexOf('(')`, the number of characters up to (and
excluding) the opening parenthesis, by which the scanner advances. -/
def jsonFuncAdvance (s : Str) : Option Nat :=
  let ws := wsCount s
  match eatLeadCI "json".data (s.drop ws) with
  | none => none
  | some t0 =>
    let cands :=
      match eatGroup t0 with
      | none => [(t0, ws + 4)]
      | some t1 =>
        match eatGroup t1 with
        | none => [(t1, ws + 4 + (t0.length - t1.length)), (t0, ws + 4)]
        | some t2 =>
          [(t2, ws + 4 + (t0.length - t2.length)),
           (t1, ws + 4 + (t0.length - t1.length)), (t0, ws + 4)]
    pickParen cands

/-- Scan of the interior of a quoted string after its opening quote `q`,
per `(?:(?!\2).|\2{2})*\2`: returns the number of characters consumed
including the closing quote. On a quote the engine first tries the doubled
`\2{2}` escape and backtracks to closing the string if the continuation
fails. -/
def scanQuotedInner (q : Char) : Str → Option Nat
  | [] => none
  | c :: rest =>
    if c = q then
      match rest with
      | c2 :: rest2 =>
        if c2 = q then
          match scanQuotedInner q rest2 with
          | some n => some (n + 2)
          | none => some 1
        else some 1
      | [] => some 1
    else
      match scanQuotedInner q rest with
      | some n => some (n + 1)
      | none => none

/-- The token kinds the loop body distinguishes. -/
inductive Tok
  | lparen
  | rparen
  | semi
  | other
deriving DecidableEq

/-- Quote characters recognised by the token regex. -/
def isQuoteCh (c : Char) : Bool := c = '"' || c = '\'' || c = tick

/-- Length of a `[\s\w]+` run. -/
def wordRun (s : Str) : Nat :=
  (s.takeWhile (fun c => isWsCh c || isWordCh c)).length

/-- The three capture alternatives at a position (after `\s*`): quoted
string, word/whitespace run, single punctuation character. -/
def tokenAlt : Str → Option (Tok × Nat)
  | [] => none
  | c :: rest =>
    match (if isQuoteCh c then scanQuotedInner c rest else none) with
    | some n => some (Tok.other, n + 1)
    | none =>
      if 0 < wordRun (c :: rest) then some (Tok.other, wordRun (c :: rest))
      else if c = '(' then some (Tok.lparen, 1)
      else if c = ')' then some (Tok.rparen, 1)
      else if c = ';' then some (Tok.semi, 1)
      else if c = '+' || c = ',' || c = '.' || c = '-' then some (Tok.other, 1)
      else none

/-- `tokenCaptureRegex` at the head of `s`: greedy `\s*`, then an
alternative; if every alternative fails right after a non-empty whitespace
run, the engine backtracks one whitespace character and `[\s\w]+` captures
it (the failing character is neither whitespace nor a word character, so
the run is that single space). The returned length is `tokenMatches[0].length`. -/
def tokenCapture (s : Str) : Option (Tok × Nat) :=
  let ws := wsCount s
  match tokenAlt (s.drop ws) with
  | some (tk, n) => some (tk, ws + n)
  | none => if 0 < ws then some (Tok.other, ws) else none

/-- The scanner's final state: `hasJsonFunction`, `hasInvalidToken` (set by
a bare-semicolon break), `openingBrackets`, `closingBrackets`. -/
structure ScanSt where
  hasJson : Bool
  invalidTok : Bool
  openB : Nat
  closeB : Nat
deriving DecidableEq

/-- The `while (currentIndex < stmt.length)` loop of
`_checkValidJsonStatement`, with fuel (every step advances by at least one
character, so fuel `stmt.length + 1` suffices). -/
def scanJson : Nat → Str → Nat → Nat → Bool → ScanSt
  | 0, _, ob, cb, hj => ⟨hj, false, ob, cb⟩
  | _ + 1, [], ob, cb, hj => ⟨hj, false, ob, cb⟩
  | fuel + 1, c :: rest, ob, cb, hj =>
    match jsonFuncAdvance (c :: rest) with
    | some adv => scanJson fuel ((c :: rest).drop adv) ob cb true
    | none =>
      match tokenCapture (c :: rest) with
      | some (Tok.lparen, n) => scanJson fuel ((c :: rest).drop n) (ob + 1) cb hj
      | some (Tok.rparen, n) => scanJson fuel ((c :: rest).drop n) ob (cb + 1) hj
      | some (Tok.semi, _) => ⟨hj, true, ob, cb⟩
      | some (Tok.other, n) => scanJson fuel ((c :: rest).drop n) ob cb hj
      | none => ⟨hj, false, ob, cb⟩

/-- `_checkValidJsonStatement` (lines 124-175): `none` models the thrown
`Invalid json statement` error, `some b` the returned boolean. -/
def checkValidJsonStatement (stmt : Str) : Option Bool :=
  let st := scanJson (stmt.length + 1) stmt 0 0 false
  let hasInvalidToken := st.invalidTok || decide (st.openB ≠ st.closeB)
  if st.hasJson && hasInvalidToken then none else some st.hasJson

/-! ### `setIsolationLevelQuery` (lines 475-488) -/

/-- Modelled from the spec: the four values of `Transaction.ISOLATION_LEVELS`
(transaction.js is not under src/); the level names also appear verbatim in
the source's comment-statement strings. -/
def isolationLevels : List Str :=
  ["READ UNCOMMITTED".data, "READ COMMITTED".data,
   "REPEATABLE READ".data, "SERIALIZABLE".data]

/-- `setIsolationLevelQuery` (lines 475-488); `none` models the thrown
`Unknown isolation level` error of the `default` branch. -/
def setIsolationLevelQuery (value : Str) : Option Str :=
  if value = "REPEATABLE READ".data then
    some "-- SQLite is not able to choose the isolation level REPEATABLE READ.".data
  else if value = "READ UNCOMMITTED".data then
    some "PRAGMA read_uncommitted = ON;".data
  else if value = "READ COMMITTED".data then
    some "PRAGMA read_uncommitted = OFF;".data
  else if value = "SERIALIZABLE".data then
    some "-- SQLite's default isolation level is SERIALIZABLE. Nothing to do.".data
  else none

/-- Self-overlap freedom of a pattern: no nonempty proper prefix is also a
suffix. This rules out occurrences of the pattern that straddle its own
canonical occurrence. -/
abbrev SelfOvFree (pat : Str) : Prop :=
  ∀ k < pat.length, 0 < k → pat.take k ≠ pat.drop (pat.length - k)

/-- The prefix conditions that make a replacement text `r` inert for the
word `w`: no pattern occurrence can start inside `r`. -/
abbrev InertFor (w r : Str) : Prop :=
  ∀ σ ∈ r.tails, σ = [] ∨
    ((¬ (defaultSp ++ '\'' :: w) <+: σ ∧ ¬ σ <+: (defaultSp ++ '\'' :: w))
     ∧ (¬ (defaultSp ++ w) <+: σ ∧ ¬ σ <+: (defaultSp ++ w)))

/-- The round-trip decoding described by claim C2 (defined from the claim's
words, to be compared against the source's `quoteIdentifier`): collapse each
doubled quote character into a single one. -/
def collapseDoubled : Str → Str
  | [] => []
  | [c] => [c]
  | c :: c2 :: rest =>
    if c = tick ∧ c2 = tick then c :: collapseDoubled rest
    else c :: collapseDoubled (c2 :: rest)

/-- The full round-trip decoding of claim C2: strip the outer quote
characters, then collapse doubled quote characters. -/
def unquoteDoubled (s : Str) : Str := collapseDoubled ((s.drop 1).dropLast)

/-! ## General list lemmas used by the proofs -/

theorem prefixSplit {p a b : Str} (h : p <+: a ++ b) :
    p <+: a ∨ ∃ e, p = a ++ e ∧ e <+: b := by
  rcases List.prefix_or_prefix_of_prefix h (List.prefix_append a b) with h1 | h1
  · exact Or.inl h1
  · right
    rcases h1 with ⟨e, he⟩
    refine ⟨e, he.symm, ?_⟩
    rcases h with ⟨t, ht⟩
    rw [← he, List.append_assoc] at ht
    exact ⟨t, List.append_cancel_left ht⟩

theorem prefixAppendLeft {x σ z : Str} (h : σ <+: z) : x ++ σ <+: x ++ z := by
  rcases h with ⟨t, ht⟩
  exact ⟨t, by rw [List.append_assoc, ht]⟩

theorem prefixHeadEq {y : Str} {c : Char} {z : Str} (h : y <+: c :: z) (hy : y ≠ []) :
    y.head? = some c := by
  rcases y with _ | ⟨a, as⟩
  · exact absurd rfl hy
  · rcases h with ⟨t, ht⟩
    simp only [List.cons_append, List.cons.injEq] at ht
    simp [ht.1]

theorem suffixLastEq {x l : Str} {c : Char} (h : x <:+ l ++ [c]) (hx : x ≠ []) :
    x.getLast? = some c := by
  rcases h with ⟨t, ht⟩
  have h1 : (t ++ x).getLast? = some c := by rw [ht]; simp [List.getLast?_concat]
  rw [List.getLast?_append] at h1
  rcases x with _ | ⟨a, as⟩
  · exact absurd rfl hx
  · simpa [List.getLast?_eq_none_iff] using h1

theorem infixAppendDecomp {pat a b : Str} (h : pat <:+: a ++ b) :
    pat <:+: a ∨ pat <:+: b ∨
      ∃ x y, pat = x ++ y ∧ x ≠ [] ∧ y ≠ [] ∧ x <:+ a ∧ y <+: b := by
  induction a with
  | nil => exact Or.inr (Or.inl (by simpa using h))
  | cons c a' ih =>
    rw [List.cons_append, List.infix_cons_iff] at h
    rcases h with h | h
    · rcases prefixSplit (show pat <+: (c :: a') ++ b by simpa using h) with h1 | h1
      · exact Or.inl h1.isInfix
      · rcases h1 with ⟨e, he, heb⟩
        rcases e with _ | ⟨d, ds⟩
        · exact Or.inl (by simp [he])
        · exact Or.inr (Or.inr ⟨c :: a', d :: ds, he, by simp, by simp,
            List.suffix_refl _, heb⟩)
    · rcases ih h with h1 | h1 | h1
      · exact Or.inl (h1.trans (List.infix_cons_iff.2 (Or.inr (List.infix_refl a'))))
      · exact Or.inr (Or.inl h1)
      · rcases h1 with ⟨x, y, hxy, hx, hy, hxa, hyb⟩
        exact Or.inr (Or.inr ⟨x, y, hxy, hx, hy, hxa.trans (a'.suffix_cons c), hyb⟩)

theorem infixConsElim {pat v : Str} {c : Char} (h : pat <:+: c :: v)
    (hc : c ∉ pat) (hp : pat ≠ []) : pat <:+: v := by
  rw [List.infix_cons_iff] at h
  rcases h with h | h
  · have := prefixHeadEq h hp
    rcases pat with _ | ⟨a, as⟩
    · exact absurd rfl hp
    · simp only [List.head?_cons, Option.some.injEq] at this
      exact absurd (this ▸ List.mem_cons_self a as) hc
  · exact h

theorem infixAroundChar {pat u v : Str} {c : Char} (h : pat <:+: u ++ c :: v)
    (hc : c ∉ pat) : pat <:+: u ∨ pat <:+: v := by
  rcases pat with _ | ⟨a, as⟩
  · exact Or.inl (List.nil_infix : ([] : Str) <:+: u)
  rcases infixAppendDecomp h with h1 | h1 | h1
  · exact Or.inl h1
  · exact Or.inr (infixConsElim h1 hc (by simp))
  · rcases h1 with ⟨x, y, hxy, hx, hy, _, hyb⟩
    have := prefixHeadEq hyb hy
    have hcy : c ∈ y := by
      rcases y with _ | ⟨d, ds⟩
      · exact absurd rfl hy
      · simp only [List.head?_cons, Option.some.injEq] at this
        exact this ▸ List.mem_cons_self d ds
    exact absurd (hxy ▸ List.mem_append_right x hcy) hc

theorem infixAppendRightRefute {pat a b : Str} (h : pat <:+: a ++ b)
    (hb : ¬ pat <:+: b)
    (hstr : ∀ y ∈ pat.tails, y = [] ∨ y = pat ∨ ¬ y <+: b) : pat <:+: a := by
  rcases infixAppendDecomp h with h1 | h1 | h1
  · exact h1
  · exact absurd h1 hb
  · rcases h1 with ⟨x, y, hxy, hx, hy, _, hyb⟩
    have hyt : y ∈ pat.tails := (List.mem_tails y pat).2 ⟨x, hxy.symm⟩
    rcases hstr y hyt with h2 | h2 | h2
    · exact absurd h2 hy
    · exfalso
      apply hx
      have : x.length + y.length = pat.length := by
        rw [← List.length_append, ← hxy]
      rw [h2] at this
      simpa using List.eq_nil_of_length_eq_zero (by omega)
    · exact absurd hyb h2

/-! ## Lemmas about `replaceFirst` -/

theorem replaceFirstNotContained {pat rep s : Str} (h : ¬ pat <:+: s) :
    replaceFirst pat rep s = s := by
  induction s with
  | nil => rfl
  | cons c rest ih =>
    rw [replaceFirst]
    rw [if_neg (fun hp => h hp.isInfix)]
    rw [ih (fun hi => h (hi.trans (List.infix_cons_iff.2 (Or.inr (List.infix_refl rest)))))]

theorem noEarlyOccurrence {pat q t : Str} (hso : SelfOvFree pat)
    (ht : t ≠ []) (hinf : ¬ pat <:+: t) (h : pat <+: t ++ (pat ++ q)) : False := by
  rcases prefixSplit h with h1 | h1
  · exact hinf h1.isInfix
  · rcases h1 with ⟨e, he, heq⟩
    rcases prefixSplit heq with h2 | h2
    · -- `e` is both a nonempty proper prefix and a suffix of `pat`
      rcases e with _ | ⟨d, ds⟩
      · exact hinf (by rw [he, List.append_nil])
      · have hlen : pat.length = t.length + (d :: ds).length := by
          rw [he]; simp
        have htpos : 0 < t.length := List.length_pos.2 ht
        have htk : pat.take (d :: ds).length = d :: ds := by
          rcases h2 with ⟨u, hu⟩
          rw [← hu]; exact List.take_left (d :: ds) u
        have hdr : pat.drop (pat.length - (d :: ds).length) = d :: ds := by
          have : pat.length - (d :: ds).length = t.length := by omega
          rw [this, he]; exact List.drop_left t (d :: ds)
        exact hso (d :: ds).length (by omega) (by simp) (htk.trans hdr.symm)
    · rcases h2 with ⟨f, hf, _⟩
      have h3 : e.length = pat.length + f.length := by rw [hf]; simp
      have hlen : pat.length = t.length + e.length := by rw [he]; simp
      exact ht (List.eq_nil_of_length_eq_zero (by omega))

theorem replaceFirstAppend {pat rep p q : Str} (hso : SelfOvFree pat) (hpat : pat ≠ [])
    (hp : ¬ pat <:+: p) : replaceFirst pat rep (p ++ (pat ++ q)) = (p ++ rep) ++ q := by
  induction p with
  | nil =>
    rcases pat with _ | ⟨c, pat'⟩
    · exact absurd rfl hpat
    show replaceFirst (c :: pat') rep (c :: (pat' ++ q)) = ([] ++ rep) ++ q
    rw [replaceFirst, if_pos ⟨q, by simp⟩]
    have : (c :: (pat' ++ q)).drop (c :: pat').length = q := by
      have hdl := List.drop_left (c :: pat') q
      simp only [List.length_cons] at hdl ⊢
      exact hdl
    rw [this]
    simp
  | cons d p' ih =>
    have hp' : ¬ pat <:+: p' :=
      fun hi => hp (hi.trans (List.infix_cons_iff.2 (Or.inr (List.infix_refl p'))))
    show replaceFirst pat rep (d :: (p' ++ (pat ++ q))) = ((d :: p') ++ rep) ++ q
    rw [replaceFirst]
    rw [if_neg (fun hpre => noEarlyOccurrence hso (show d :: p' ≠ [] by simp) hp
      (show pat <+: (d :: p') ++ (pat ++ q) by simpa using hpre))]
    rw [ih hp']
    simp

theorem memReplaceFirst {pat rep s : Str} {c : Char} (h : c ∈ replaceFirst pat rep s) :
    c ∈ s ∨ c ∈ rep := by
  induction s with
  | nil => simp [replaceFirst] at h
  | cons d rest ih =>
    rw [replaceFirst] at h
    by_cases hp : pat <+: d :: rest
    · rw [if_pos hp] at h
      rcases List.mem_append.1 h with h1 | h1
      · exact Or.inr h1
      · exact Or.inl (List.mem_of_mem_drop h1)
    · rw [if_neg hp] at h
      rcases List.mem_cons.1 h with h1 | h1
      · exact Or.inl (h1 ▸ List.mem_cons_self d rest)
      · rcases ih h1 with h2 | h2
        · exact Or.inl (List.mem_cons_of_mem d h2)
        · exact Or.inr h2

theorem memFromFirst {pat s : Str} {c : Char} (h : c ∈ fromFirst pat s) : c ∈ s := by
  induction s with
  | nil => simp [fromFirst] at h
  | cons d rest ih =>
    rw [fromFirst] at h
    by_cases hp : pat <+: d :: rest
    · rwa [if_pos hp] at h
    · rw [if_neg hp] at h
      exact List.mem_cons_of_mem d (ih h)

/-! ## Lemmas about `quoteIdentifier` -/

theorem quoteIdentifierEq (identifier : Str) :
    quoteIdentifier identifier
      = tick :: identifier.filter (fun c => !(c == tick)) ++ [tick] := by
  unfold quoteIdentifier addTicks removeTicks
  rw [List.filter_filter]
  simp only [Bool.and_self]

theorem tickNotMemFilter (s : Str) : tick ∉ s.filter (fun c => !(c == tick)) := by
  intro h
  have := List.mem_filter.1 h
  simp at this

theorem filterEqSelfOfNotMem {s : Str} (h : tick ∉ s) :
    s.filter (fun c => !(c == tick)) = s := by
  rw [List.filter_eq_self]
  intro a ha
  simp only [bne_iff_ne, ne_eq, Bool.not_eq_true', beq_eq_false_iff_ne]
  exact fun hat => h (hat ▸ ha)

theorem quoteIdentifierOfNoTick {identifier : Str} (h : tick ∉ identifier) :
    quoteIdentifier identifier = tick :: identifier ++ [tick] := by
  rw [quoteIdentifierEq, filterEqSelfOfNotMem h]

theorem memQuoteIdentifier {identifier : Str} {c : Char}
    (h : c ∈ quoteIdentifier identifier) : c ∈ identifier ∨ c = tick := by
  rw [quoteIdentifierEq] at h
  rcases List.mem_cons.1 h with h1 | h1
  · exact Or.inr h1
  · rcases List.mem_append.1 h1 with h2 | h2
    · exact Or.inl (List.mem_of_mem_filter h2)
    · exact Or.inr (by simpa using h2)

theorem collapseDoubledId : ∀ l : Str, tick ∉ l → collapseDoubled l = l
  | [], _ => rfl
  | [_], _ => rfl
  | c :: c2 :: rest, h => by
    rw [collapseDoubled]
    rw [if_neg (fun hcc : c = tick ∧ c2 = tick => h (hcc.1 ▸ List.mem_cons_self c (c2 :: rest)))]
    rw [collapseDoubledId (c2 :: rest) (fun hm => h (List.mem_cons_of_mem c hm))]

/-! ## Claim theorems: quoting (C2, C10) -/

/-- C2 counterexample: for the identifier ``a`b`` (which contains the quote
character), `quoteIdentifier` yields the quoted text `ab` — the embedded backtick is
removed, not doubled — so stripping the outer quotes and collapsing doubled
quote characters yields `ab`, not the original identifier: the claimed
round-trip fails. -/
theorem claim2_counterexample :
    tick ∈ "a`b".data ∧
    quoteIdentifier "a`b".data = "`ab`".data ∧
    unquoteDoubled (quoteIdentifier "a`b".data) ≠ "a`b".data := by decide

/-- C2 amended: for every identifier containing the dialect's quote
character, `quoteIdentifier` removes each embedded quote character and wraps
the result in quote characters (no doubling), so the round-trip of the claim
recovers the identifier with its quote characters removed, not the original
identifier. -/
theorem claim2_amended_strip_roundtrip (identifier : Str) (_h : tick ∈ identifier) :
    quoteIdentifier identifier
      = tick :: identifier.filter (fun c => !(c == tick)) ++ [tick]
    ∧ unquoteDoubled (quoteIdentifier identifier)
        = identifier.filter (fun c => !(c == tick)) := by
  refine ⟨quoteIdentifierEq identifier, ?_⟩
  rw [quoteIdentifierEq, unquoteDoubled]
  simp only [List.cons_append, List.drop_one, List.tail_cons, List.dropLast_concat]
  exact collapseDoubledId _ (tickNotMemFilter identifier)

theorem claim2_amended_witness :
    tick ∈ "a`b".data ∧
    (quoteIdentifier "a`b".data
      = tick :: "a`b".data.filter (fun c => !(c == tick)) ++ [tick]
    ∧ unquoteDoubled (quoteIdentifier "a`b".data)
        = "a`b".data.filter (fun c => !(c == tick))) :=
  ⟨by decide, claim2_amended_strip_roundtrip "a`b".data (by decide)⟩

/-- C10: for every input string, `quoteIdentifier` produces a backtick,
then the input with every backtick removed, then a closing backtick — so the
output starts and ends with the quote character and its interior contains no
quote character (embedded backticks are removed before wrapping). -/
theorem claim10_quoteIdentifier_wellformed (identifier : Str) :
    quoteIdentifier identifier
      = tick :: identifier.filter (fun c => !(c == tick)) ++ [tick]
    ∧ tick ∉ identifier.filter (fun c => !(c == tick)) :=
  ⟨quoteIdentifierEq identifier, tickNotMemFilter identifier⟩

/-! ## Lemmas about the boolean-default rewriting pass (C7)

The idempotence proof works by showing that neither replacement pass can
leave or create a match of its own pattern: the replacement texts
`DEFAULT 0`/`DEFAULT 1` contain no lowercase characters, so they cannot
take part in a `false`/`true` occurrence, and an apparent match in a
rewritten string always maps back to a match in the original string. -/

theorem eatLeadEqAppend {p : Str} : ∀ {s t : Str}, eatLead p s = some t → s = p ++ t := by
  induction p with
  | nil =>
    intro s t h
    simp only [eatLead, Option.some.injEq] at h
    simp [h]
  | cons a ps ih =>
    intro s t h
    rcases s with _ | ⟨c, cs⟩
    · simp [eatLead] at h
    · rw [eatLead] at h
      by_cases hc : c = a
      · rw [if_pos hc] at h
        simp [hc, ih h]
      · rw [if_neg hc] at h
        exact absurd h (by simp)

theorem eatLeadAppend (p t : Str) : eatLead p (p ++ t) = some t := by
  induction p with
  | nil => rfl
  | cons a ps ih => rw [List.cons_append, eatLead, if_pos rfl]; exact ih

theorem eatOptQuoteSuffix (s : Str) : eatOptQuote s <:+ s := by
  rcases s with _ | ⟨c, rest⟩
  · exact List.suffix_refl []
  · rw [eatOptQuote]
    by_cases hc : c = '\''
    · rw [if_pos hc]; exact List.suffix_cons c rest
    · rw [if_neg hc]

theorem mapEatOptSuffix {w u t : Str} (h : (eatLead w u).map eatOptQuote = some t) :
    t <:+ u := by
  rcases he : eatLead w u with _ | t3
  · rw [he] at h; exact absurd h (by simp)
  · rw [he] at h
    simp only [Option.map_some', Option.some.injEq] at h
    exact h ▸ (eatOptQuoteSuffix t3).trans ⟨w, (eatLeadEqAppend he).symm⟩

theorem matchBDDecomp {w s t : Str} (h : matchBoolDefault w s = some t) :
    ∃ u, s = defaultSp ++ u ∧ t <:+ u := by
  unfold matchBoolDefault at h
  rcases he : eatLead defaultSp s with _ | u <;> rw [he] at h
  · exact absurd h (by simp)
  simp only [Option.some_bind] at h
  refine ⟨u, eatLeadEqAppend he, ?_⟩
  rcases u with _ | ⟨c, t2⟩
  · rw [matchAfterDefault] at h
    exact mapEatOptSuffix h
  rw [matchAfterDefault] at h
  by_cases hc : c = '\''
  · rw [if_pos hc] at h
    rcases he2 : eatLead w t2 with _ | t3 <;> rw [he2] at h
    · simp only [Option.map_none', Option.orElse] at h
      exact mapEatOptSuffix h
    · simp only [Option.map_some', Option.orElse, Option.some.injEq] at h
      have h3 : t3 <:+ t2 := ⟨w, (eatLeadEqAppend he2).symm⟩
      exact h ▸ ((eatOptQuoteSuffix t3).trans (h3.trans (List.suffix_cons c t2)))
  · rw [if_neg hc] at h
    exact mapEatOptSuffix h

theorem defaultSpLength : defaultSp.length = 8 := rfl

theorem matchBDLength {w s t : Str} (h : matchBoolDefault w s = some t) :
    t.length + 8 ≤ s.length := by
  rcases matchBDDecomp h with ⟨u, hs, htu⟩
  have h1 : t.length ≤ u.length := htu.length_le
  have h2 : s.length = 8 + u.length := by
    rw [hs, List.length_append, defaultSpLength]
  omega

theorem matchBDSuffix {w s t : Str} (h : matchBoolDefault w s = some t) : t <:+ s := by
  rcases matchBDDecomp h with ⟨u, hs, htu⟩
  rw [hs]
  exact htu.trans ⟨defaultSp, rfl⟩

theorem matchBDIsSomeIff {w s : Str} {c0 : Char} {w' : Str} (hw : w = c0 :: w')
    (hq : c0 ≠ '\'') :
    (matchBoolDefault w s).isSome = true ↔
      ((defaultSp ++ '\'' :: w) <+: s ∨ (defaultSp ++ w) <+: s) := by
  constructor
  · intro h
    unfold matchBoolDefault at h
    rcases he : eatLead defaultSp s with _ | u <;> rw [he] at h
    · simp at h
    simp only [Option.some_bind] at h
    have hs := eatLeadEqAppend he
    rcases u with _ | ⟨c, t2⟩
    · rw [matchAfterDefault, hw] at h
      simp [eatLead] at h
    rw [matchAfterDefault] at h
    by_cases hc : c = '\''
    · rw [if_pos hc] at h
      rcases he2 : eatLead w t2 with _ | t3 <;> rw [he2] at h
      · simp only [Option.map_none', Option.orElse] at h
        rcases he3 : eatLead w (c :: t2) with _ | t4 <;> rw [he3] at h
        · simp at h
        · exfalso
          have h4 := eatLeadEqAppend he3
          rw [hw, List.cons_append] at h4
          have hcc : c = c0 := by injection h4
          apply hq
          rw [← hcc, hc]
      · left
        have h2 := eatLeadEqAppend he2
        rw [hs, hc, h2]
        exact ⟨t3, by simp⟩
    · rw [if_neg hc] at h
      rcases he3 : eatLead w (c :: t2) with _ | t4 <;> rw [he3] at h
      · simp at h
      · right
        have h3 := eatLeadEqAppend he3
        rw [hs, h3]
        exact ⟨t4, by simp⟩
  · intro h
    rcases h with ⟨rest, hrest⟩ | ⟨rest, hrest⟩
    · have hs : s = defaultSp ++ ('\'' :: (w ++ rest)) := by
        rw [← hrest]; simp
      rw [hs]
      unfold matchBoolDefault
      rw [eatLeadAppend]
      simp only [Option.some_bind, matchAfterDefault, if_pos rfl, eatLeadAppend]
      simp
    · have hs : s = defaultSp ++ (c0 :: (w' ++ rest)) := by
        rw [← hrest, hw]; simp
      rw [hs]
      unfold matchBoolDefault
      rw [eatLeadAppend]
      simp only [Option.some_bind, matchAfterDefault, if_neg hq]
      have h5 : eatLead w (c0 :: (w' ++ rest)) = some rest := by
        rw [hw]; exact eatLeadAppend (c0 :: w') rest
      rw [h5]
      rfl

theorem hasBDConsFalse {w : Str} {c : Char} {rest : Str}
    (h : hasBoolDefault w (c :: rest) = false) :
    matchBoolDefault w (c :: rest) = none ∧ hasBoolDefault w rest = false := by
  rw [hasBoolDefault, Bool.or_eq_false_iff] at h
  refine ⟨?_, h.2⟩
  rcases hm : matchBoolDefault w (c :: rest) with _ | t
  · rfl
  · exfalso; rw [hm] at h; simp at h

theorem hasBDSuffixFalse {w : Str} : ∀ {s t : Str},
    hasBoolDefault w s = false → t <:+ s → hasBoolDefault w t = false := by
  intro s
  induction s with
  | nil => intro t _ h; rw [List.suffix_nil.1 h]; rfl
  | cons c rest ih =>
    intro t hs h
    rcases List.suffix_cons_iff.1 h with h1 | h1
    · exact h1 ▸ hs
    · exact ih (hasBDConsFalse hs).2 h1

theorem rbwFNil (w r : Str) (fuel : Nat) : replaceBoolWordF w r fuel [] = [] := by
  cases fuel <;> rfl

theorem rbwFConsSome {w : Str} {c : Char} {rest t : Str} {r : Str} {fuel : Nat}
    (h : matchBoolDefault w (c :: rest) = some t) :
    replaceBoolWordF w r (fuel + 1) (c :: rest) = r ++ replaceBoolWordF w r fuel t := by
  simp only [replaceBoolWordF, h]

theorem rbwFConsNone {w : Str} {c : Char} {rest : Str} {r : Str} {fuel : Nat}
    (h : matchBoolDefault w (c :: rest) = none) :
    replaceBoolWordF w r (fuel + 1) (c :: rest) = c :: replaceBoolWordF w r fuel rest := by
  simp only [replaceBoolWordF, h]

theorem rbwFStructure (w2 r2 : Str) :
    ∀ fuel s, s.length ≤ fuel →
      replaceBoolWordF w2 r2 fuel s = s ∨
      ∃ g u X, s = g ++ (defaultSp ++ u) ∧
        replaceBoolWordF w2 r2 fuel s = g ++ (r2 ++ X) := by
  intro fuel
  induction fuel with
  | zero =>
    intro s hs
    left
    rw [List.length_eq_zero.1 (Nat.le_zero.1 hs), rbwFNil]
  | succ fuel ih =>
    intro s hs
    rcases s with _ | ⟨c, rest⟩
    · left; rfl
    have hrest : rest.length ≤ fuel := by
      rw [List.length_cons] at hs; omega
    rcases hm : matchBoolDefault w2 (c :: rest) with _ | t
    · rcases ih rest hrest with h1 | h1
      · left; rw [rbwFConsNone hm, h1]
      · rcases h1 with ⟨g, u, X, hsplit, hrw⟩
        right
        exact ⟨c :: g, u, X, by rw [List.cons_append, ← hsplit],
          by rw [rbwFConsNone hm, hrw, List.cons_append]⟩
    · right
      rcases matchBDDecomp hm with ⟨u, hsu, _⟩
      exact ⟨[], u, replaceBoolWordF w2 r2 fuel t, by simpa using hsu,
        by rw [rbwFConsSome hm]; simp⟩

theorem patNotPrefixOutput {z : Str} {c : Char} {g u X : Str} {ch : Char}
    (hch : ch ∉ z)
    (h : (defaultSp ++ z) <+: c :: (g ++ ((defaultSp ++ [ch]) ++ X))) :
    (defaultSp ++ z) <+: c :: (g ++ (defaultSp ++ u)) := by
  have hassoc : c :: (g ++ ((defaultSp ++ [ch]) ++ X))
      = (c :: g) ++ ((defaultSp ++ [ch]) ++ X) := by simp
  rw [hassoc] at h
  have htarget : (c :: g) ++ (defaultSp ++ u) = c :: (g ++ (defaultSp ++ u)) := by simp
  rcases prefixSplit h with h1 | h1
  · exact htarget ▸ h1.trans (List.prefix_append (c :: g) (defaultSp ++ u))
  rcases h1 with ⟨σ, hσeq, hσ⟩
  rw [List.append_assoc] at hσ
  rcases prefixSplit hσ with h2 | h2
  · have hp : (defaultSp ++ z) <+: (c :: g) ++ defaultSp := by
      rw [hσeq]; exact prefixAppendLeft h2
    have : (c :: g) ++ defaultSp <+: (c :: g) ++ (defaultSp ++ u) :=
      prefixAppendLeft (List.prefix_append defaultSp u)
    exact htarget ▸ hp.trans this
  rcases h2 with ⟨δ, hδeq, hδ⟩
  rcases δ with _ | ⟨d, δ'⟩
  · have hp : (defaultSp ++ z) <+: (c :: g) ++ defaultSp := by
      rw [hσeq, hδeq]; simp
    have : (c :: g) ++ defaultSp <+: (c :: g) ++ (defaultSp ++ u) :=
      prefixAppendLeft (List.prefix_append defaultSp u)
    exact htarget ▸ hp.trans this
  · exfalso
    have hd : d = ch := by
      have h3 := prefixHeadEq hδ (by simp)
      simpa using h3
    have hpat2 : defaultSp ++ z = ((c :: g) ++ defaultSp) ++ (d :: δ') := by
      rw [hσeq, hδeq]; simp
    have hmem : ch ∈ (defaultSp ++ z).drop (((c :: g) ++ defaultSp).length) := by
      rw [hpat2, List.drop_left]
      exact hd ▸ List.mem_cons_self d δ'
    have hlen : ((c :: g) ++ defaultSp).length = (c :: g).length + 8 := by
      rw [List.length_append, defaultSpLength]
    rw [hlen, Nat.add_comm, ← List.drop_drop] at hmem
    have hmem2 : ch ∈ (defaultSp ++ z).drop 8 := List.mem_of_mem_drop hmem
    have hdrop : (defaultSp ++ z).drop 8 = z := by
      rw [← defaultSpLength, List.drop_left]
    exact hch (hdrop ▸ hmem2)

theorem matchBDHeadNonePreserved {w w2 r2 : Str} {c0 : Char} {w' : Str}
    (hw : w = c0 :: w') (hq : c0 ≠ '\'')
    {ch : Char} (hr2 : r2 = defaultSp ++ [ch])
    (hch1 : ch ≠ '\'') (hch2 : ch ∉ w)
    {fuel : Nat} {c : Char} {rest : Str} (hfuel : rest.length ≤ fuel)
    (hnone : matchBoolDefault w (c :: rest) = none) :
    matchBoolDefault w (c :: replaceBoolWordF w2 r2 fuel rest) = none := by
  rcases rbwFStructure w2 r2 fuel rest hfuel with h1 | h1
  · rwa [h1]
  rcases h1 with ⟨g, u, X, hsplit, hrw⟩
  rw [hrw]
  rcases hm : matchBoolDefault w (c :: (g ++ (r2 ++ X))) with _ | t
  · rfl
  exfalso
  have hsome : (matchBoolDefault w (c :: (g ++ (r2 ++ X)))).isSome = true := by
    rw [hm]; rfl
  have hback : (matchBoolDefault w (c :: rest)).isSome = true := by
    rw [hsplit]
    refine (matchBDIsSomeIff hw hq).2 ?_
    rcases (matchBDIsSomeIff hw hq).1 hsome with hp | hp
    · rw [hr2] at hp
      exact Or.inl (patNotPrefixOutput (show ch ∉ '\'' :: w by simp [hch1, hch2]) hp)
    · rw [hr2] at hp
      exact Or.inr (patNotPrefixOutput hch2 hp)
  rw [hnone] at hback
  simp at hback

theorem hasBDAppendFalse {w r X : Str} {c0 : Char} {w' : Str} (hw : w = c0 :: w')
    (hq : c0 ≠ '\'') (htails : InertFor w r)
    (hX : hasBoolDefault w X = false) :
    hasBoolDefault w (r ++ X) = false := by
  induction r with
  | nil => simpa using hX
  | cons c r' ih =>
    have htails' : InertFor w r' := fun σ hσ =>
      htails σ (by rw [List.tails_cons]; exact List.mem_cons_of_mem _ hσ)
    rw [List.cons_append, hasBoolDefault, Bool.or_eq_false_iff]
    refine ⟨?_, ih htails'⟩
    rcases hm : matchBoolDefault w (c :: (r' ++ X)) with _ | t
    · rfl
    exfalso
    have hsome : (matchBoolDefault w (c :: (r' ++ X))).isSome = true := by
      rw [hm]; rfl
    have hone := (matchBDIsSomeIff hw hq).1 hsome
    have hcr : c :: (r' ++ X) = (c :: r') ++ X := by simp
    rcases htails (c :: r') (by rw [List.tails_cons]; exact List.mem_cons_self _ _)
      with h0 | hcl
    · simp at h0
    rcases hone with hp | hp
    · rw [hcr] at hp
      rcases prefixSplit hp with h1 | h1
      · exact hcl.1.1 h1
      · rcases h1 with ⟨e, he, _⟩
        exact hcl.1.2 ⟨e, he.symm⟩
    · rw [hcr] at hp
      rcases prefixSplit hp with h1 | h1
      · exact hcl.2.1 h1
      · rcases h1 with ⟨e, he, _⟩
        exact hcl.2.2 ⟨e, he.symm⟩

theorem hasBDRbwFSelf {w r : Str} {c0 : Char} {w' : Str} (hw : w = c0 :: w')
    (hq : c0 ≠ '\'') {ch : Char} (hr : r = defaultSp ++ [ch])
    (hch1 : ch ≠ '\'') (hch2 : ch ∉ w) (htails : InertFor w r) :
    ∀ fuel s, s.length ≤ fuel →
      hasBoolDefault w (replaceBoolWordF w r fuel s) = false := by
  intro fuel
  induction fuel with
  | zero =>
    intro s hs
    rw [List.length_eq_zero.1 (Nat.le_zero.1 hs), rbwFNil]
    rfl
  | succ fuel ih =>
    intro s hs
    rcases s with _ | ⟨c, rest⟩
    · rw [rbwFNil]; rfl
    have hrest : rest.length ≤ fuel := by
      rw [List.length_cons] at hs; omega
    rcases hm : matchBoolDefault w (c :: rest) with _ | t
    · rw [rbwFConsNone hm, hasBoolDefault, Bool.or_eq_false_iff]
      refine ⟨?_, ih rest hrest⟩
      rw [matchBDHeadNonePreserved hw hq hr hch1 hch2 hrest hm]
      rfl
    · rw [rbwFConsSome hm]
      have ht : t.length ≤ fuel := by
        have hlt := matchBDLength hm
        rw [List.length_cons] at hs hlt
        omega
      exact hasBDAppendFalse hw hq htails (ih t ht)

theorem hasBDRbwFOther {w w2 r2 : Str} {c0 : Char} {w' : Str} (hw : w = c0 :: w')
    (hq : c0 ≠ '\'') {ch : Char} (hr2 : r2 = defaultSp ++ [ch])
    (hch1 : ch ≠ '\'') (hch2 : ch ∉ w) (htails : InertFor w r2) :
    ∀ fuel s, s.length ≤ fuel → hasBoolDefault w s = false →
      hasBoolDefault w (replaceBoolWordF w2 r2 fuel s) = false := by
  intro fuel
  induction fuel with
  | zero =>
    intro s hs _
    rw [List.length_eq_zero.1 (Nat.le_zero.1 hs), rbwFNil]
    rfl
  | succ fuel ih =>
    intro s hs hclean
    rcases s with _ | ⟨c, rest⟩
    · rw [rbwFNil]; rfl
    have hrest : rest.length ≤ fuel := by
      rw [List.length_cons] at hs; omega
    have hcc := hasBDConsFalse hclean
    rcases hm : matchBoolDefault w2 (c :: rest) with _ | t
    · rw [rbwFConsNone hm, hasBoolDefault, Bool.or_eq_false_iff]
      refine ⟨?_, ih rest hrest hcc.2⟩
      rw [matchBDHeadNonePreserved hw hq hr2 hch1 hch2 hrest hcc.1]
      rfl
    · rw [rbwFConsSome hm]
      have ht : t.length ≤ fuel := by
        have hlt := matchBDLength hm
        rw [List.length_cons] at hs hlt
        omega
      have htc : hasBoolDefault w t = false :=
        hasBDSuffixFalse hclean (matchBDSuffix hm)
      exact hasBDAppendFalse hw hq htails (ih t ht htc)

theorem rbwFIdOfClean {w r : Str} :
    ∀ fuel s, hasBoolDefault w s = false → replaceBoolWordF w r fuel s = s := by
  intro fuel
  induction fuel with
  | zero => intro s _; rcases s with _ | ⟨c, rest⟩ <;> rfl
  | succ fuel ih =>
    intro s hclean
    rcases s with _ | ⟨c, rest⟩
    · rfl
    have hcc := hasBDConsFalse hclean
    rw [rbwFConsNone hcc.1, ih rest hcc.2]

/-- Identity of the full pass on match-free text, used wherever a generated
statement contains no boolean-default pattern. -/
theorem replaceBooleanDefaultsId {sql : Str}
    (hf : hasBoolDefault "false".data sql = false)
    (ht : hasBoolDefault "true".data sql = false) :
    replaceBooleanDefaults sql = sql := by
  unfold replaceBooleanDefaults replaceBoolWord
  rw [rbwFIdOfClean _ _ hf, rbwFIdOfClean _ _ ht]

/-! ## Claim theorem: idempotence of the boolean-default pass (C7) -/

/-- C7: `replaceBooleanDefaults` is idempotent — for every SQL text, applying
the two global substitutions twice yields exactly the same text as applying
them once. After one pass no `DEFAULT '?false'?` or `DEFAULT '?true'?` match
remains (the inserted texts cannot take part in a new match), so the second
pass is the identity. -/
theorem claim7_boolean_default_rewrite_idempotent (s : Str) :
    replaceBooleanDefaults (replaceBooleanDefaults s) = replaceBooleanDefaults s := by
  have hwF : ("false".data : Str) = 'f' :: "alse".data := rfl
  have hwT : ("true".data : Str) = 't' :: "rue".data := rfl
  have hrF : ("DEFAULT 0".data : Str) = defaultSp ++ ['0'] := rfl
  have hrT : ("DEFAULT 1".data : Str) = defaultSp ++ ['1'] := rfl
  have hiF : InertFor "false".data "DEFAULT 0".data := by decide
  have hiT : InertFor "true".data "DEFAULT 1".data := by decide
  have hiFT : InertFor "false".data "DEFAULT 1".data := by decide
  have h1 : hasBoolDefault "false".data
      (replaceBoolWord "false".data "DEFAULT 0".data s) = false :=
    hasBDRbwFSelf hwF (by decide) hrF (by decide) (by decide) hiF s.length s le_rfl
  have h3 : hasBoolDefault "false".data (replaceBooleanDefaults s) = false :=
    hasBDRbwFOther hwF (by decide) hrT (by decide) (by decide)
      hiFT (replaceBoolWord "false".data "DEFAULT 0".data s).length
      (replaceBoolWord "false".data "DEFAULT 0".data s) le_rfl h1
  have h2 : hasBoolDefault "true".data (replaceBooleanDefaults s) = false :=
    hasBDRbwFSelf hwT (by decide) hrT (by decide) (by decide) hiT
      (replaceBoolWord "false".data "DEFAULT 0".data s).length
      (replaceBoolWord "false".data "DEFAULT 0".data s) le_rfl
  exact replaceBooleanDefaultsId h3 h2

/-! ## Lemmas about `createTableQuery` (C1, C6) -/

theorem includesStrTrue {pat s : Str} (h : pat <:+: s) : includesStr pat s = true := by
  simp [includesStr, h]

theorem includesStrFalse {pat s : Str} (h : ¬ pat <:+: s) : includesStr pat s = false := by
  simp [includesStr, h]

theorem spkConsPk : spkMarker = ' ' :: pkMarker := rfl

theorem pkInfixSpk : pkMarker <:+: spkMarker := by decide

theorem pkInfixOfShape {dataType base : Str} (hb : dataType = base ++ spkMarker) :
    pkMarker <:+: dataType :=
  ⟨base ++ [' '], [], by rw [hb, spkConsPk]; simp⟩

theorem columnTypeStringNotPk {nm : Bool} {dataType : Str}
    (h : ¬ pkMarker <:+: dataType) : columnTypeString nm dataType = dataType := by
  unfold columnTypeString
  rw [includesStrFalse h]
  simp

theorem columnTypeStringMultiNN {dataType base : Str}
    (hb : dataType = base ++ spkMarker) (hnb : ¬ pkMarker <:+: base)
    (hnn : nnMarker <:+: dataType) :
    columnTypeString true dataType = base := by
  unfold columnTypeString
  rw [includesStrTrue (pkInfixOfShape hb), includesStrTrue hnn]
  simp only [if_true, if_pos rfl]
  have hspk : ¬ spkMarker <:+: base := fun hs => hnb (pkInfixSpk.trans hs)
  have hshape : dataType = base ++ (spkMarker ++ []) := by rw [hb]; simp
  rw [hshape, replaceFirstAppend (by decide) (by decide) hspk]
  simp

theorem columnTypeStringMultiNoNN {dataType base : Str}
    (hb : dataType = base ++ spkMarker) (hnb : ¬ pkMarker <:+: base)
    (hnn : ¬ nnMarker <:+: dataType) :
    columnTypeString true dataType = base ++ (' ' :: nnMarker) := by
  unfold columnTypeString
  rw [includesStrTrue (pkInfixOfShape hb), includesStrFalse hnn]
  simp only [if_true, if_pos rfl, Bool.false_eq_true, if_false]
  have hp : ¬ pkMarker <:+: base ++ [' '] := fun h =>
    hnb (infixAppendRightRefute h (by decide) (by decide))
  have hshape : dataType = (base ++ [' ']) ++ (pkMarker ++ []) := by
    rw [hb, spkConsPk]; simp
  rw [hshape, replaceFirstAppend (by decide) (by decide) hp]
  simp

theorem pkColDefClean {attr dts : Str} (h1 : ¬ pkMarker <:+: attr) (h2 : tick ∉ attr)
    (h3 : ¬ pkMarker <:+: dts) :
    ¬ pkMarker <:+: quoteIdentifier attr ++ ' ' :: dts := by
  intro h
  rw [quoteIdentifierOfNoTick h2] at h
  have hsh : (tick :: attr ++ [tick]) ++ ' ' :: dts
      = tick :: (attr ++ tick :: ' ' :: dts) := by simp
  rw [hsh] at h
  have htp : tick ∉ pkMarker := by decide
  have h4 : pkMarker <:+: attr ++ tick :: (' ' :: dts) :=
    infixConsElim h htp (by decide)
  rcases infixAroundChar h4 htp with h5 | h5
  · exact h1 h5
  · rcases List.infix_cons_iff.1 h5 with h6 | h6
    · exact absurd (prefixHeadEq h6 (by decide)) (by decide)
    · exact h3 h6

theorem pkNotInBaseNN {base : Str} (hnb : ¬ pkMarker <:+: base) :
    ¬ pkMarker <:+: base ++ (' ' :: nnMarker) := by
  intro h
  exact hnb (infixAppendRightRefute h (by decide) (by decide))

theorem nnInBaseOfShape {dataType base : Str} (hb : dataType = base ++ spkMarker)
    (hnn : nnMarker <:+: dataType) : nnMarker <:+: base := by
  rw [hb] at hnn
  exact infixAppendRightRefute hnn (by decide) (by decide)

theorem needsMultiTrue {attributes : List (Str × Str)}
    (hN : 1 < (attributes.filter (fun p => includesStr pkMarker p.2)).length) :
    needsMultiplePrimaryKeys attributes = true := by
  simp [needsMultiplePrimaryKeys, hN]

theorem pkStringOfPos {attributes : List (Str × Str)}
    (hN : 1 < (attributes.filter (fun p => includesStr pkMarker p.2)).length) :
    0 < (pkStringOf attributes).length := by
  unfold pkStringOf primaryKeysOf
  rw [needsMultiTrue hN]
  rw [if_pos rfl]
  rcases hfil : attributes.filter (fun p => includesStr pkMarker p.2) with _ | ⟨p1, rest⟩
  · rw [hfil] at hN; simp at hN
  rcases rest with _ | ⟨p2, rest2⟩
  · rw [hfil] at hN; simp at hN
  rw [hfil]
  simp [joinSep, quoteIdentifierEq]

theorem attrStrOfMulti {attributes : List (Str × Str)}
    (hN : 1 < (attributes.filter (fun p => includesStr pkMarker p.2)).length) :
    attrStrOf attributes
      = joinSep ", ".data (attrArrayOf true attributes)
        ++ (", PRIMARY KEY (".data ++ (pkStringOf attributes ++ [')'])) := by
  unfold attrStrOf
  rw [needsMultiTrue hN, if_pos (pkStringOfPos hN)]
  simp

theorem pkStringOfMulti {attributes : List (Str × Str)}
    (hN : 1 < (attributes.filter (fun p => includesStr pkMarker p.2)).length) :
    pkStringOf attributes
      = joinSep ", ".data
          (((attributes.filter (fun p => includesStr pkMarker p.2)).map Prod.fst).map
            quoteIdentifier) := by
  unfold pkStringOf primaryKeysOf
  rw [needsMultiTrue hN, if_pos rfl]

/-! ## Claim theorems: composite primary keys (C1) -/

/-- C1: for an attribute set with at least two primary-key-marked definitions
(each of the well-formed shape `type ... PRIMARY KEY` produced by
`attributesToSQL`), `createTableQuery` emits every column definition without
an inline `PRIMARY KEY` token and appends exactly one trailing
`PRIMARY KEY (...)` table constraint listing all the marked attribute names,
quoted, in declaration order. -/
theorem claim1_composite_pk_consolidation (tableName : Str)
    (attributes : List (Str × Str))
    (hN : 1 < (attributes.filter (fun p => includesStr pkMarker p.2)).length)
    (hnames : ∀ p ∈ attributes, ¬ pkMarker <:+: p.1 ∧ tick ∉ p.1)
    (hdefs : ∀ p ∈ attributes, pkMarker <:+: p.2 →
        ∃ base, p.2 = base ++ spkMarker ∧ ¬ pkMarker <:+: base)
    (hbf : hasBoolDefault "false".data (createTableRawSql tableName attributes) = false)
    (hbt : hasBoolDefault "true".data (createTableRawSql tableName attributes) = false) :
    ∃ cols : List Str,
      createTableQuery tableName attributes
        = "CREATE TABLE IF NOT EXISTS ".data ++ quoteTable tableName ++ " (".data
          ++ joinSep ", ".data cols ++ ", PRIMARY KEY (".data
          ++ joinSep ", ".data
              (((attributes.filter (fun p => includesStr pkMarker p.2)).map Prod.fst).map
                quoteIdentifier)
          ++ "));".data
      ∧ cols.length = attributes.length
      ∧ ∀ col ∈ cols, ¬ pkMarker <:+: col := by
  refine ⟨attrArrayOf true attributes, ?_, by simp [attrArrayOf], ?_⟩
  · have hq : createTableQuery tableName attributes
        = createTableRawSql tableName attributes := by
      unfold createTableQuery
      exact replaceBooleanDefaultsId hbf hbt
    rw [hq]
    unfold createTableRawSql
    rw [attrStrOfMulti hN, pkStringOfMulti hN]
    have hclose : ([')'] : Str) ++ ");".data = "));".data := rfl
    simp only [← List.append_assoc]
    rw [List.append_assoc _ ([')'] : Str) ");".data, hclose]
  · intro col hcol
    rw [attrArrayOf, List.mem_map] at hcol
    rcases hcol with ⟨p, hp, hcol⟩
    rw [← hcol]
    by_cases hpk : pkMarker <:+: p.2
    · rcases hdefs p hp hpk with ⟨base, hbase, hnb⟩
      by_cases hnn : nnMarker <:+: p.2
      · rw [columnTypeStringMultiNN hbase hnb hnn]
        exact pkColDefClean (hnames p hp).1 (hnames p hp).2 hnb
      · rw [columnTypeStringMultiNoNN hbase hnb hnn]
        exact pkColDefClean (hnames p hp).1 (hnames p hp).2 (pkNotInBaseNN hnb)
    · rw [columnTypeStringNotPk hpk]
      exact pkColDefClean (hnames p hp).1 (hnames p hp).2 hpk

theorem claim1_witness :
    ∃ cols : List Str,
      createTableQuery "person".data
          [("a".data, "INTEGER PRIMARY KEY".data),
           ("b".data, "VARCHAR(12) NOT NULL PRIMARY KEY".data)]
        = "CREATE TABLE IF NOT EXISTS ".data ++ quoteTable "person".data ++ " (".data
          ++ joinSep ", ".data cols ++ ", PRIMARY KEY (".data
          ++ joinSep ", ".data
              ((([("a".data, "INTEGER PRIMARY KEY".data),
                  ("b".data, "VARCHAR(12) NOT NULL PRIMARY KEY".data)].filter
                  (fun p => includesStr pkMarker p.2)).map Prod.fst).map quoteIdentifier)
          ++ "));".data
      ∧ cols.length
          = [("a".data, "INTEGER PRIMARY KEY".data),
             ("b".data, "VARCHAR(12) NOT NULL PRIMARY KEY".data)].length
      ∧ ∀ col ∈ cols, ¬ pkMarker <:+: col :=
  claim1_composite_pk_consolidation "person".data _ (by decide) (by decide)
    (by
      intro p hp hpk
      simp only [List.mem_cons, List.not_mem_nil, or_false] at hp
      rcases hp with hp | hp
      · exact ⟨"INTEGER".data, by rw [hp]; decide, by decide⟩
      · exact ⟨"VARCHAR(12) NOT NULL".data, by rw [hp]; decide, by decide⟩)
    (by decide) (by decide)

/-! ## Claim theorems: inline marker stripping (C6) -/

/-- C6 counterexample: with two integer primary-key columns where `a` is
nullable, the code does not leave `a` nullable with the marker simply
removed (which would emit ```a` INTEGER,`): it replaces the marker with
`NOT NULL`, emitting ```a` INTEGER NOT NULL,`. -/
theorem claim6_counterexample :
    createTableQuery "t".data
        [("a".data, "INTEGER PRIMARY KEY".data), ("b".data, "INTEGER PRIMARY KEY".data)]
      = "CREATE TABLE IF NOT EXISTS `t` (`a` INTEGER NOT NULL, `b` INTEGER NOT NULL, PRIMARY KEY (`a`, `b`));".data
    ∧ ¬ "`a` INTEGER,".data <:+:
        createTableQuery "t".data
          [("a".data, "INTEGER PRIMARY KEY".data), ("b".data, "INTEGER PRIMARY KEY".data)] := by
  decide

/-- C6 amended: during primary-key consolidation with multiple primary-key
attributes, `createTableQuery` strips the inline marker from each column
definition — removing it outright (keeping the existing `NOT NULL`) when
the column was already non-nullable, and otherwise replacing the marker with
`NOT NULL` — so every composite-key column is emitted non-nullable and
without an inline `PRIMARY KEY` token. -/
theorem claim6_amended_pk_strip (attributes : List (Str × Str))
    (hN : 1 < (attributes.filter (fun p => includesStr pkMarker p.2)).length)
    (hdefs : ∀ p ∈ attributes, pkMarker <:+: p.2 →
        ∃ base, p.2 = base ++ spkMarker ∧ ¬ pkMarker <:+: base) :
    ∀ p ∈ attributes, pkMarker <:+: p.2 →
      ∃ base, p.2 = base ++ spkMarker
        ∧ columnTypeString (needsMultiplePrimaryKeys attributes) p.2
            = (if nnMarker <:+: p.2 then base else base ++ (' ' :: nnMarker))
        ∧ nnMarker <:+: columnTypeString (needsMultiplePrimaryKeys attributes) p.2
        ∧ ¬ pkMarker <:+: columnTypeString (needsMultiplePrimaryKeys attributes) p.2 := by
  intro p hp hpk
  rcases hdefs p hp hpk with ⟨base, hbase, hnb⟩
  rw [needsMultiTrue hN]
  by_cases hnn : nnMarker <:+: p.2
  · refine ⟨base, hbase, ?_, ?_, ?_⟩
    · rw [columnTypeStringMultiNN hbase hnb hnn, if_pos hnn]
    · rw [columnTypeStringMultiNN hbase hnb hnn]
      exact nnInBaseOfShape hbase hnn
    · rw [columnTypeStringMultiNN hbase hnb hnn]
      exact hnb
  · refine ⟨base, hbase, ?_, ?_, ?_⟩
    · rw [columnTypeStringMultiNoNN hbase hnb hnn, if_neg hnn]
    · rw [columnTypeStringMultiNoNN hbase hnb hnn]
      exact ⟨base ++ [' '], [], by simp⟩
    · rw [columnTypeStringMultiNoNN hbase hnb hnn]
      exact pkNotInBaseNN hnb

theorem claim6_witness :
    ∃ base : Str, ("SMALLINT PRIMARY KEY".data : Str) = base ++ spkMarker
      ∧ columnTypeString
          (needsMultiplePrimaryKeys
            [("a".data, "SMALLINT PRIMARY KEY".data),
             ("b".data, "TEXT NOT NULL PRIMARY KEY".data)])
          "SMALLINT PRIMARY KEY".data
          = (if nnMarker <:+: "SMALLINT PRIMARY KEY".data then base
             else base ++ (' ' :: nnMarker))
      ∧ nnMarker <:+: columnTypeString
          (needsMultiplePrimaryKeys
            [("a".data, "SMALLINT PRIMARY KEY".data),
             ("b".data, "TEXT NOT NULL PRIMARY KEY".data)])
          "SMALLINT PRIMARY KEY".data
      ∧ ¬ pkMarker <:+: columnTypeString
          (needsMultiplePrimaryKeys
            [("a".data, "SMALLINT PRIMARY KEY".data),
             ("b".data, "TEXT NOT NULL PRIMARY KEY".data)])
          "SMALLINT PRIMARY KEY".data :=
  claim6_amended_pk_strip
    [("a".data, "SMALLINT PRIMARY KEY".data), ("b".data, "TEXT NOT NULL PRIMARY KEY".data)]
    (by decide)
    (by
      intro p hp hpk
      simp only [List.mem_cons, List.not_mem_nil, or_false] at hp
      rcases hp with hp | hp
      · exact ⟨"SMALLINT".data, by rw [hp]; decide, by decide⟩
      · exact ⟨"TEXT NOT NULL".data, by rw [hp]; decide, by decide⟩)
    ("a".data, "SMALLINT PRIMARY KEY".data) (by decide) (by decide)

/-! ## Statement splitting and semicolon bookkeeping (C4, C5) -/

theorem splitSemiNoSemi {a : Str} (h : ';' ∉ a) : splitSemi a = [a] := by
  induction a with
  | nil => rfl
  | cons c rest ih =>
    rw [splitSemi]
    rw [if_neg (fun hc : c = ';' => h (hc ▸ List.mem_cons_self c rest))]
    rw [ih (fun hm => h (List.mem_cons_of_mem c hm))]

theorem splitSemiAppend {a : Str} (b : Str) (h : ';' ∉ a) :
    splitSemi (a ++ ';' :: b) = a :: splitSemi b := by
  induction a with
  | nil =>
    rw [List.nil_append, splitSemi, if_pos rfl]
  | cons c rest ih =>
    rw [List.cons_append, splitSemi]
    rw [if_neg (fun hc : c = ';' => h (hc ▸ List.mem_cons_self c _))]
    rw [ih (fun hm => h (List.mem_cons_of_mem c hm))]

theorem memIntPkTypeString {dataType : Str} {c : Char}
    (h : c ∈ intPkTypeString dataType) :
    c ∈ dataType ∨ c ∈ "INTEGER PRIMARY KEY AUTOINCREMENT".data := by
  unfold intPkTypeString at h
  rcases List.mem_append.1 h with h1 | h1
  · split at h1
    · exact Or.inr h1
    · right
      have hsub : "INTEGER PRIMARY KEY".data ⊆ "INTEGER PRIMARY KEY AUTOINCREMENT".data := by
        decide
      exact hsub h1
  · split at h1
    · exact Or.inl (memFromFirst h1)
    · simp at h1

theorem columnTypeStringEqMultiNN {dataType : Str} (hpk : pkMarker <:+: dataType)
    (hnn : nnMarker <:+: dataType) :
    columnTypeString true dataType = replaceFirst spkMarker [] dataType := by
  unfold columnTypeString
  rw [includesStrTrue hpk, includesStrTrue hnn]
  simp

theorem columnTypeStringEqMultiNoNN {dataType : Str} (hpk : pkMarker <:+: dataType)
    (hnn : ¬ nnMarker <:+: dataType) :
    columnTypeString true dataType = replaceFirst pkMarker nnMarker dataType := by
  unfold columnTypeString
  rw [includesStrTrue hpk, includesStrFalse hnn]
  simp

theorem columnTypeStringEqSingle {dataType : Str} (hpk : pkMarker <:+: dataType) :
    columnTypeString false dataType
      = (if includesStr "INT".data dataType then intPkTypeString dataType
         else dataType) := by
  unfold columnTypeString
  rw [includesStrTrue hpk]
  simp

theorem memColumnTypeString {nm : Bool} {dataType : Str} {c : Char}
    (h : c ∈ columnTypeString nm dataType) :
    c ∈ dataType ∨ c ∈ "INTEGER PRIMARY KEY AUTOINCREMENT".data ∨ c ∈ nnMarker := by
  by_cases hpk : pkMarker <:+: dataType
  · cases nm with
    | true =>
      by_cases hnn : nnMarker <:+: dataType
      · rw [columnTypeStringEqMultiNN hpk hnn] at h
        rcases memReplaceFirst h with h1 | h1
        · exact Or.inl h1
        · simp at h1
      · rw [columnTypeStringEqMultiNoNN hpk hnn] at h
        rcases memReplaceFirst h with h1 | h1
        · exact Or.inl h1
        · exact Or.inr (Or.inr h1)
    | false =>
      rw [columnTypeStringEqSingle hpk] at h
      split at h
      · rcases memIntPkTypeString h with h1 | h1
        · exact Or.inl h1
        · exact Or.inr (Or.inl h1)
      · exact Or.inl h
  · rw [columnTypeStringNotPk hpk] at h
    exact Or.inl h

theorem memJoinSep {sep : Str} {l : List Str} {c : Char} (h : c ∈ joinSep sep l) :
    c ∈ sep ∨ ∃ x ∈ l, c ∈ x := by
  induction l with
  | nil => simp [joinSep] at h
  | cons x ys ih =>
    rcases ys with _ | ⟨y, rest⟩
    · rw [joinSep] at h
      exact Or.inr ⟨x, by simp, h⟩
    · rw [joinSep] at h
      rcases List.mem_append.1 h with h1 | h1
      · rcases List.mem_append.1 h1 with h2 | h2
        · exact Or.inr ⟨x, by simp, h2⟩
        · exact Or.inl h2
      · rcases ih h1 with h2 | h2
        · exact Or.inl h2
        · rcases h2 with ⟨z, hz, hcz⟩
          exact Or.inr ⟨z, List.mem_cons_of_mem x hz, hcz⟩

theorem semiNotInQuote {x : Str} (hx : ';' ∉ x) : ';' ∉ quoteIdentifier x := by
  intro h
  rcases memQuoteIdentifier h with h1 | h1
  · exact hx h1
  · exact absurd h1 (by decide)

theorem semiNotInBackup {tableName : Str} (h : ';' ∉ tableName) :
    ';' ∉ backupName tableName := by
  intro hm
  unfold backupName at hm
  rcases List.mem_append.1 hm with h1 | h1
  · exact h h1
  · exact absurd h1 (by decide)

theorem semiNotInPkString {attributes : List (Str × Str)}
    (hsem : ∀ p ∈ attributes, ';' ∉ p.1) : ';' ∉ pkStringOf attributes := by
  intro h
  unfold pkStringOf at h
  rcases memJoinSep h with h1 | ⟨x, hx, hcx⟩
  · exact absurd h1 (by decide)
  · rw [List.mem_map] at hx
    rcases hx with ⟨name, hname, rfl⟩
    unfold primaryKeysOf at hname
    split at hname
    · rw [List.mem_map] at hname
      rcases hname with ⟨p, hp, rfl⟩
      exact semiNotInQuote (hsem p (List.mem_of_mem_filter hp)) hcx
    · simp at hname

theorem semiNotInAttrStr {attributes : List (Str × Str)}
    (hsem : ∀ p ∈ attributes, ';' ∉ p.1 ∧ ';' ∉ p.2) :
    ';' ∉ attrStrOf attributes := by
  intro h
  have hbase : ';' ∉ joinSep ", ".data
      (attrArrayOf (needsMultiplePrimaryKeys attributes) attributes) := by
    intro hb
    rcases memJoinSep hb with h1 | ⟨x, hx, hcx⟩
    · exact absurd h1 (by decide)
    · rw [attrArrayOf, List.mem_map] at hx
      rcases hx with ⟨p, hp, rfl⟩
      rcases List.mem_append.1 hcx with h2 | h2
      · exact semiNotInQuote (hsem p hp).1 h2
      · rcases List.mem_cons.1 h2 with h3 | h3
        · exact absurd h3 (by decide)
        · rcases memColumnTypeString h3 with h4 | h4 | h4
          · exact (hsem p hp).2 h4
          · exact absurd h4 (by decide)
          · exact absurd h4 (by decide)
  unfold attrStrOf at h
  split at h
  · rcases List.mem_append.1 h with h1 | h1
    · rcases List.mem_append.1 h1 with h2 | h2
      · rcases List.mem_append.1 h2 with h3 | h3
        · exact hbase h3
        · exact absurd h3 (by decide)
      · exact semiNotInPkString (fun p hp => (hsem p hp).1) h2
    · exact absurd h1 (by decide)
  · exact hbase h

theorem createTableRawSqlSplit (tableName : Str) (attributes : List (Str × Str)) :
    createTableRawSql tableName attributes
      = ("CREATE TABLE IF NOT EXISTS ".data ++ quoteTable tableName ++ " (".data
          ++ attrStrOf attributes ++ [')']) ++ ';' :: [] := by
  unfold createTableRawSql
  have h : (");".data : Str) = [')'] ++ ';' :: [] := rfl
  rw [h]
  simp [List.append_assoc]

theorem semiNotInCreateBody {tableName : Str} {attributes : List (Str × Str)}
    (ht : ';' ∉ tableName)
    (hsem : ∀ p ∈ attributes, ';' ∉ p.1 ∧ ';' ∉ p.2) :
    ';' ∉ "CREATE TABLE IF NOT EXISTS ".data ++ quoteTable tableName ++ " (".data
        ++ attrStrOf attributes ++ [')'] := by
  intro h
  rcases List.mem_append.1 h with h1 | h1
  · rcases List.mem_append.1 h1 with h2 | h2
    · rcases List.mem_append.1 h2 with h3 | h3
      · rcases List.mem_append.1 h3 with h4 | h4
        · exact absurd h4 (by decide)
        · exact semiNotInQuote ht h4
      · exact absurd h3 (by decide)
    · exact semiNotInAttrStr hsem h2
  · exact absurd h1 (by decide)

theorem attributesToSQLId (attributes : List (Str × Str)) :
    attributesToSQL attributes = attributes := by
  unfold attributesToSQL
  simp

/-! ## Claim theorems: column removal plan (C5) -/

/-- C5: removing one column from a three-column table (so passing the two
surviving attributes) produces exactly four statements — create the backup
table, insert-select the two surviving columns, drop the original, rename
the backup to the original — and the insert's select list is exactly the two
surviving quoted column names, which excludes the removed column. -/
theorem notMemAppend {c : Char} {x y : Str} (hx : c ∉ x) (hy : c ∉ y) :
    c ∉ x ++ y := by
  intro h
  rcases List.mem_append.1 h with h | h
  · exact hx h
  · exact hy h

theorem notMemConsNe {c d : Char} {y : Str} (hd : c ≠ d) (hy : c ∉ y) :
    c ∉ d :: y := by
  intro h
  rcases List.mem_cons.1 h with h | h
  · exact hd h
  · exact hy h

theorem quoteIdentifierInj {x y : Str} (hx : tick ∉ x) (hy : tick ∉ y)
    (h : quoteIdentifier x = quoteIdentifier y) : x = y := by
  rw [quoteIdentifierOfNoTick hx, quoteIdentifierOfNoTick hy] at h
  have h2 : tick :: x = tick :: y := List.append_cancel_right h
  simpa using h2

theorem claim5_remove_column_four_statements
    (tableName a b da db removed : Str)
    (hta : ';' ∉ tableName) (hsa : ';' ∉ a) (hsb : ';' ∉ b)
    (hda : ';' ∉ da) (hdb : ';' ∉ db)
    (hbf : hasBoolDefault "false".data
        (createTableRawSql (backupName tableName) [(a, da), (b, db)]) = false)
    (hbt : hasBoolDefault "true".data
        (createTableRawSql (backupName tableName) [(a, da), (b, db)]) = false)
    (hra : removed ≠ a) (hrb : removed ≠ b)
    (htr : tick ∉ removed) (hta2 : tick ∉ a) (htb2 : tick ∉ b) :
    splitSemi (removeColumnQuery tableName [(a, da), (b, db)])
      = ["CREATE TABLE IF NOT EXISTS ".data ++ quoteTable (backupName tableName)
           ++ " (".data ++ attrStrOf [(a, da), (b, db)] ++ [')'],
         "INSERT INTO ".data ++ quoteTable (backupName tableName) ++ " SELECT ".data
           ++ (quoteIdentifier a ++ ", ".data ++ quoteIdentifier b) ++ " FROM ".data
           ++ quoteTable tableName,
         "DROP TABLE ".data ++ quoteTable tableName,
         "ALTER TABLE ".data ++ quoteTable (backupName tableName) ++ " RENAME TO ".data
           ++ quoteTable tableName,
         []]
    ∧ quoteIdentifier removed ∉ [quoteIdentifier a, quoteIdentifier b] := by
  have hsemAll : ∀ p ∈ [(a, da), (b, db)], ';' ∉ p.1 ∧ ';' ∉ p.2 := by
    intro p hp
    rcases List.mem_cons.1 hp with h | h
    · rw [h]; exact ⟨hsa, hda⟩
    · rcases List.mem_cons.1 h with h2 | h2
      · rw [h2]; exact ⟨hsb, hdb⟩
      · simp at h2
  have hqb : ';' ∉ quoteTable (backupName tableName) :=
    semiNotInQuote (semiNotInBackup hta)
  have hqt : ';' ∉ quoteTable tableName := semiNotInQuote hta
  constructor
  · have hct : createTableQuery (backupName tableName) [(a, da), (b, db)]
        = ("CREATE TABLE IF NOT EXISTS ".data ++ quoteTable (backupName tableName)
            ++ " (".data ++ attrStrOf [(a, da), (b, db)] ++ [')']) ++ ';' :: [] := by
      unfold createTableQuery
      rw [replaceBooleanDefaultsId hbf hbt]
      exact createTableRawSqlSplit _ _
    have hqu : removeColumnQuery tableName [(a, da), (b, db)]
        = ("CREATE TABLE IF NOT EXISTS ".data ++ quoteTable (backupName tableName)
            ++ " (".data ++ attrStrOf [(a, da), (b, db)] ++ [')'])
          ++ ';' :: (("INSERT INTO ".data ++ quoteTable (backupName tableName)
            ++ " SELECT ".data
            ++ (quoteIdentifier a ++ ", ".data ++ quoteIdentifier b) ++ " FROM ".data
            ++ quoteTable tableName)
          ++ ';' :: (("DROP TABLE ".data ++ quoteTable tableName)
          ++ ';' :: (("ALTER TABLE ".data ++ quoteTable (backupName tableName)
            ++ " RENAME TO ".data ++ quoteTable tableName)
          ++ ';' :: []))) := by
      simp only [removeColumnQuery, attributesToSQLId]
      rw [hct]
      simp [joinSep, List.append_assoc]
    rw [hqu]
    rw [splitSemiAppend _ (semiNotInCreateBody (semiNotInBackup hta) hsemAll)]
    rw [splitSemiAppend _ (notMemAppend (notMemAppend (notMemAppend (notMemAppend
      (notMemAppend (by decide) hqb) (by decide))
      (notMemAppend (notMemAppend (semiNotInQuote hsa) (by decide))
        (semiNotInQuote hsb))) (by decide)) hqt)]
    rw [splitSemiAppend _ (notMemAppend (by decide) hqt)]
    rw [splitSemiAppend _ (notMemAppend (notMemAppend (notMemAppend
      (by decide) hqb) (by decide)) hqt)]
    rfl
  · intro hmem
    rcases List.mem_cons.1 hmem with h | h
    · exact hra (quoteIdentifierInj htr hta2 h)
    · rcases List.mem_cons.1 h with h2 | h2
      · exact hrb (quoteIdentifierInj htr htb2 h2)
      · simp at h2

theorem claim5_witness :
    splitSemi (removeColumnQuery "users".data
        [("id".data, "INTEGER".data), ("name".data, "VARCHAR(255)".data)])
      = ["CREATE TABLE IF NOT EXISTS ".data ++ quoteTable (backupName "users".data)
           ++ " (".data ++ attrStrOf [("id".data, "INTEGER".data),
             ("name".data, "VARCHAR(255)".data)] ++ [')'],
         "INSERT INTO ".data ++ quoteTable (backupName "users".data) ++ " SELECT ".data
           ++ (quoteIdentifier "id".data ++ ", ".data ++ quoteIdentifier "name".data)
           ++ " FROM ".data ++ quoteTable "users".data,
         "DROP TABLE ".data ++ quoteTable "users".data,
         "ALTER TABLE ".data ++ quoteTable (backupName "users".data) ++ " RENAME TO ".data
           ++ quoteTable "users".data,
         []]
    ∧ quoteIdentifier "email".data ∉
        [quoteIdentifier "id".data, quoteIdentifier "name".data] :=
  claim5_remove_column_four_statements "users".data "id".data "name".data
    "INTEGER".data "VARCHAR(255)".data "email".data
    (by decide) (by decide) (by decide) (by decide) (by decide)
    (by decide) (by decide) (by decide) (by decide)
    (by decide) (by decide) (by decide)

/-! ## Claim theorems: column rename plan (C4) -/

/-- C4 counterexample: `renameColumnQuery` emits no
`ALTER TABLE ... RENAME TO` statement at all — instead of renaming the
backup table back, it re-creates the original table and copies the data
back, ending with `DROP TABLE` of the backup. The claim's required final
`ALTER TABLE <temp> RENAME TO <original>` step is absent (the text
`RENAME TO` does not occur in the output). -/
theorem claim4_counterexample :
    renameColumnQuery "users".data "nick".data "handle".data
        [("id".data, "INTEGER".data), ("handle".data, "VARCHAR(255)".data)]
      = "CREATE TABLE IF NOT EXISTS `users_backup` (`id` INTEGER, `handle` VARCHAR(255));INSERT INTO `users_backup` SELECT `id`, `nick` AS `handle` FROM `users`;DROP TABLE `users`;CREATE TABLE IF NOT EXISTS `users` (`id` INTEGER, `handle` VARCHAR(255));INSERT INTO `users` SELECT `id`, `handle` FROM `users_backup`;DROP TABLE `users_backup`;".data
    ∧ ¬ "RENAME TO".data <:+:
        renameColumnQuery "users".data "nick".data "handle".data
          [("id".data, "INTEGER".data), ("handle".data, "VARCHAR(255)".data)] := by
  decide

/-- C4 amended: `renameColumnQuery` emits exactly six statements — create
the backup table from the post-change attribute set, insert-select into the
backup with the renamed column aliased (`old AS new`), drop the original,
re-create the original table from the post-change attribute set,
insert-select everything back into it, and finally drop the backup table as
the last step. No `ALTER TABLE ... RENAME TO` statement is emitted. -/
theorem claim4_amended_rename_recreates (tableName attrNameBefore attrNameAfter : Str)
    (attributes : List (Str × Str))
    (hta : ';' ∉ tableName) (hbefore : ';' ∉ attrNameBefore)
    (hsem : ∀ p ∈ attributes, ';' ∉ p.1 ∧ ';' ∉ p.2)
    (hbf1 : hasBoolDefault "false".data
        (createTableRawSql (backupName tableName) attributes) = false)
    (hbt1 : hasBoolDefault "true".data
        (createTableRawSql (backupName tableName) attributes) = false)
    (hbf2 : hasBoolDefault "false".data
        (createTableRawSql tableName attributes) = false)
    (hbt2 : hasBoolDefault "true".data
        (createTableRawSql tableName attributes) = false) :
    splitSemi (renameColumnQuery tableName attrNameBefore attrNameAfter attributes)
      = ["CREATE TABLE IF NOT EXISTS ".data ++ quoteTable (backupName tableName)
           ++ " (".data ++ attrStrOf attributes ++ [')'],
         "INSERT INTO ".data ++ quoteTable (backupName tableName) ++ " SELECT ".data
           ++ joinSep ", ".data (attributes.map (fun p =>
               if attrNameAfter = p.1 then
                 quoteIdentifier attrNameBefore ++ " AS ".data ++ quoteIdentifier p.1
               else quoteIdentifier p.1))
           ++ " FROM ".data ++ quoteTable tableName,
         "DROP TABLE ".data ++ quoteTable tableName,
         "CREATE TABLE IF NOT EXISTS ".data ++ quoteTable tableName
           ++ " (".data ++ attrStrOf attributes ++ [')'],
         "INSERT INTO ".data ++ quoteTable tableName ++ " SELECT ".data
           ++ joinSep ", ".data (attributes.map (fun p => quoteIdentifier p.1))
           ++ " FROM ".data ++ quoteTable (backupName tableName),
         "DROP TABLE ".data ++ quoteTable (backupName tableName),
         []] := by
  have hqb : ';' ∉ quoteTable (backupName tableName) :=
    semiNotInQuote (semiNotInBackup hta)
  have hqt : ';' ∉ quoteTable tableName := semiNotInQuote hta
  have himp : ';' ∉ joinSep ", ".data (attributes.map (fun p =>
      if attrNameAfter = p.1 then
        quoteIdentifier attrNameBefore ++ " AS ".data ++ quoteIdentifier p.1
      else quoteIdentifier p.1)) := by
    intro h
    rcases memJoinSep h with h1 | ⟨x, hx, hcx⟩
    · exact absurd h1 (by decide)
    · rw [List.mem_map] at hx
      rcases hx with ⟨p, hp, rfl⟩
      split at hcx
      · rcases List.mem_append.1 hcx with h2 | h2
        · rcases List.mem_append.1 h2 with h3 | h3
          · exact semiNotInQuote hbefore h3
          · exact absurd h3 (by decide)
        · exact semiNotInQuote (hsem p hp).1 h2
      · exact semiNotInQuote (hsem p hp).1 hcx
  have hexp : ';' ∉ joinSep ", ".data (attributes.map (fun p => quoteIdentifier p.1)) := by
    intro h
    rcases memJoinSep h with h1 | ⟨x, hx, hcx⟩
    · exact absurd h1 (by decide)
    · rw [List.mem_map] at hx
      rcases hx with ⟨p, hp, rfl⟩
      exact semiNotInQuote (hsem p hp).1 hcx
  have hct1 : createTableQuery (backupName tableName) attributes
      = ("CREATE TABLE IF NOT EXISTS ".data ++ quoteTable (backupName tableName)
          ++ " (".data ++ attrStrOf attributes ++ [')']) ++ ';' :: [] := by
    unfold createTableQuery
    rw [replaceBooleanDefaultsId hbf1 hbt1]
    exact createTableRawSqlSplit _ _
  have hct2 : createTableQuery tableName attributes
      = ("CREATE TABLE IF NOT EXISTS ".data ++ quoteTable tableName
          ++ " (".data ++ attrStrOf attributes ++ [')']) ++ ';' :: [] := by
    unfold createTableQuery
    rw [replaceBooleanDefaultsId hbf2 hbt2]
    exact createTableRawSqlSplit _ _
  have hqu : renameColumnQuery tableName attrNameBefore attrNameAfter attributes
      = ("CREATE TABLE IF NOT EXISTS ".data ++ quoteTable (backupName tableName)
          ++ " (".data ++ attrStrOf attributes ++ [')'])
        ++ ';' :: (("INSERT INTO ".data ++ quoteTable (backupName tableName)
          ++ " SELECT ".data
          ++ joinSep ", ".data (attributes.map (fun p =>
              if attrNameAfter = p.1 then
                quoteIdentifier attrNameBefore ++ " AS ".data ++ quoteIdentifier p.1
              else quoteIdentifier p.1))
          ++ " FROM ".data ++ quoteTable tableName)
        ++ ';' :: (("DROP TABLE ".data ++ quoteTable tableName)
        ++ ';' :: (("CREATE TABLE IF NOT EXISTS ".data ++ quoteTable tableName
          ++ " (".data ++ attrStrOf attributes ++ [')'])
        ++ ';' :: (("INSERT INTO ".data ++ quoteTable tableName ++ " SELECT ".data
          ++ joinSep ", ".data (attributes.map (fun p => quoteIdentifier p.1))
          ++ " FROM ".data ++ quoteTable (backupName tableName))
        ++ ';' :: (("DROP TABLE ".data ++ quoteTable (backupName tableName))
        ++ ';' :: []))))) := by
    simp only [renameColumnQuery, attributesToSQLId]
    rw [hct1, hct2]
    simp [List.append_assoc]
  rw [hqu]
  rw [splitSemiAppend _ (semiNotInCreateBody (semiNotInBackup hta) hsem)]
  rw [splitSemiAppend _ (notMemAppend (notMemAppend (notMemAppend (notMemAppend
    (notMemAppend (by decide) hqb) (by decide)) himp) (by decide)) hqt)]
  rw [splitSemiAppend _ (notMemAppend (by decide) hqt)]
  rw [splitSemiAppend _ (semiNotInCreateBody hta hsem)]
  rw [splitSemiAppend _ (notMemAppend (notMemAppend (notMemAppend (notMemAppend
    (notMemAppend (by decide) hqt) (by decide)) hexp) (by decide)) hqb)]
  rw [splitSemiAppend _ (notMemAppend (by decide) hqb)]
  rfl

theorem claim4_amended_witness :
    splitSemi (renameColumnQuery "users".data "nick".data "handle".data
        [("id".data, "INTEGER".data), ("handle".data, "VARCHAR(255)".data)])
      = ["CREATE TABLE IF NOT EXISTS ".data ++ quoteTable (backupName "users".data)
           ++ " (".data ++ attrStrOf [("id".data, "INTEGER".data),
             ("handle".data, "VARCHAR(255)".data)] ++ [')'],
         "INSERT INTO ".data ++ quoteTable (backupName "users".data) ++ " SELECT ".data
           ++ joinSep ", ".data ([("id".data, "INTEGER".data),
               ("handle".data, "VARCHAR(255)".data)].map (fun p =>
               if "handle".data = p.1 then
                 quoteIdentifier "nick".data ++ " AS ".data ++ quoteIdentifier p.1
               else quoteIdentifier p.1))
           ++ " FROM ".data ++ quoteTable "users".data,
         "DROP TABLE ".data ++ quoteTable "users".data,
         "CREATE TABLE IF NOT EXISTS ".data ++ quoteTable "users".data
           ++ " (".data ++ attrStrOf [("id".data, "INTEGER".data),
             ("handle".data, "VARCHAR(255)".data)] ++ [')'],
         "INSERT INTO ".data ++ quoteTable "users".data ++ " SELECT ".data
           ++ joinSep ", ".data ([("id".data, "INTEGER".data),
               ("handle".data, "VARCHAR(255)".data)].map (fun p => quoteIdentifier p.1))
           ++ " FROM ".data ++ quoteTable (backupName "users".data),
         "DROP TABLE ".data ++ quoteTable (backupName "users".data),
         []] :=
  claim4_amended_rename_recreates "users".data "nick".data "handle".data
    [("id".data, "INTEGER".data), ("handle".data, "VARCHAR(255)".data)]
    (by decide) (by decide) (by decide)
    (by decide) (by decide) (by decide) (by decide)

/-! ## Claim theorems: isolation levels (C9) -/

/-- C9: `setIsolationLevelQuery` maps `READ UNCOMMITTED`/`READ COMMITTED` to
the native `PRAGMA read_uncommitted` statements, maps `REPEATABLE READ` and
`SERIALIZABLE` to no-op SQL comments, and throws (`none`) on every value
outside the four enumerated levels. -/
theorem claim9_isolation_levels :
    setIsolationLevelQuery "READ UNCOMMITTED".data
        = some "PRAGMA read_uncommitted = ON;".data
    ∧ setIsolationLevelQuery "READ COMMITTED".data
        = some "PRAGMA read_uncommitted = OFF;".data
    ∧ setIsolationLevelQuery "REPEATABLE READ".data
        = some "-- SQLite is not able to choose the isolation level REPEATABLE READ.".data
    ∧ setIsolationLevelQuery "SERIALIZABLE".data
        = some "-- SQLite's default isolation level is SERIALIZABLE. Nothing to do.".data
    ∧ ∀ value : Str, value ∉ isolationLevels → setIsolationLevelQuery value = none := by
  refine ⟨by decide, by decide, by decide, by decide, ?_⟩
  intro value hv
  simp only [isolationLevels, List.mem_cons, List.not_mem_nil, or_false, not_or] at hv
  rw [setIsolationLevelQuery, if_neg hv.2.2.1, if_neg hv.1, if_neg hv.2.1, if_neg hv.2.2.2]

theorem claim9_witness : setIsolationLevelQuery "SNAPSHOT".data = none :=
  claim9_isolation_levels.2.2.2.2 "SNAPSHOT".data (by decide)

/-! ## Lemmas about `trimStr`, `escNat` and the limit subquery (C8) -/

theorem dropWhileEqSelfOfHead {l : Str}
    (h : ∀ c, l.head? = some c → isWsCh c = false) :
    l.dropWhile isWsCh = l := by
  rcases l with _ | ⟨c, rest⟩
  · rfl
  · rw [List.dropWhile_cons, h c rfl]
    simp

theorem trimStrEqSelf {s : Str}
    (h1 : ∀ c, s.head? = some c → isWsCh c = false)
    (h2 : ∀ c, s.getLast? = some c → isWsCh c = false) :
    trimStr s = s := by
  unfold trimStr
  rw [dropWhileEqSelfOfHead h1]
  rw [dropWhileEqSelfOfHead (fun c hc => h2 c (by rwa [List.head?_reverse] at hc))]
  exact List.reverse_reverse s

theorem getLastAppendSingleton {x : Str} {c : Char} :
    (x ++ [c]).getLast? = some c := by
  simp [List.getLast?_concat]

theorem getLastConsAppend {d : Char} {x : Str} {c : Char}
    (h : x.getLast? = some c) : (d :: x).getLast? = some c := by
  rw [← List.singleton_append, List.getLast?_append, h]
  rfl

theorem getLastAppendOf {a x : Str} {c : Char} (h : x.getLast? = some c) :
    (a ++ x).getLast? = some c := by
  rw [List.getLast?_append, h]
  rfl

theorem digitCharMem (d : Nat) : digitChar d ∈ "0123456789".data := by
  unfold digitChar
  split <;> decide

theorem escNatLastDigit (n : Nat) :
    ∃ d, (escNat n).getLast? = some d ∧ d ∈ "0123456789".data := by
  unfold escNat natDigitsF
  split
  · exact ⟨digitChar n, rfl, digitCharMem n⟩
  · exact ⟨digitChar (n % 10), getLastAppendSingleton, digitCharMem _⟩

theorem limitPatNeNil {x : Str} : "LIMIT ".data ++ x ≠ [] := by
  intro h
  simpa using congrArg List.length h

/-! ## Claim theorems: UPDATE/DELETE row cap via rowid subquery (C8) -/

/-- C8: with a positive `limit`, both `deleteQuery` and `updateQuery`
restrict the matched rows through
`WHERE rowid IN (SELECT rowid FROM <table> ... LIMIT n)` — and the generated
statement does not end in a trailing `LIMIT n`. -/
theorem claim8_update_delete_limit_subquery
    (tableName whereCond whereSql : Str) (setValues : List Str) (n : Nat)
    (hn : 0 < n) :
    deleteQuery tableName whereCond (some n)
      = "DELETE FROM ".data ++ quoteTable tableName
        ++ ' ' :: ("WHERE rowid IN (SELECT rowid FROM ".data ++ quoteTable tableName
          ++ ' ' :: (if whereCond = [] then whereCond else "WHERE ".data ++ whereCond)
          ++ " LIMIT ".data ++ escNat n ++ [')'])
    ∧ ¬ ("LIMIT ".data ++ escNat n) <:+ deleteQuery tableName whereCond (some n)
    ∧ updateQuery tableName setValues whereSql (some n)
      = "UPDATE ".data ++ quoteTable tableName ++ " SET ".data
        ++ joinSep [','] setValues
        ++ " WHERE rowid IN (SELECT rowid FROM ".data ++ quoteTable tableName
        ++ ' ' :: whereSql ++ " LIMIT ".data ++ escNat n ++ [')']
    ∧ ¬ ("LIMIT ".data ++ escNat n) <:+ updateQuery tableName setValues whereSql (some n) := by
  have hne := Nat.pos_iff_ne_zero.1 hn
  have hdel : deleteQuery tableName whereCond (some n)
      = "DELETE FROM ".data ++ quoteTable tableName
        ++ ' ' :: ("WHERE rowid IN (SELECT rowid FROM ".data ++ quoteTable tableName
          ++ ' ' :: (if whereCond = [] then whereCond else "WHERE ".data ++ whereCond)
          ++ " LIMIT ".data ++ escNat n ++ [')']) := by
    simp only [deleteQuery]
    rw [if_pos hne]
    apply trimStrEqSelf
    · intro c hc
      have hh : ("DELETE FROM ".data ++ quoteTable tableName
          ++ ' ' :: ("WHERE rowid IN (SELECT rowid FROM ".data ++ quoteTable tableName
            ++ ' ' :: (if whereCond = [] then whereCond else "WHERE ".data ++ whereCond)
            ++ " LIMIT ".data ++ escNat n ++ [')'])).head? = some 'D' := rfl
      rw [hh, Option.some.injEq] at hc
      rw [← hc]
      rfl
    · intro c hc
      have hl : ("DELETE FROM ".data ++ quoteTable tableName
          ++ ' ' :: ("WHERE rowid IN (SELECT rowid FROM ".data ++ quoteTable tableName
            ++ ' ' :: (if whereCond = [] then whereCond else "WHERE ".data ++ whereCond)
            ++ " LIMIT ".data ++ escNat n ++ [')'])).getLast? = some ')' :=
        getLastAppendOf (getLastConsAppend getLastAppendSingleton)
      rw [hl, Option.some.injEq] at hc
      rw [← hc]
      rfl
  have hupd : updateQuery tableName setValues whereSql (some n)
      = "UPDATE ".data ++ quoteTable tableName ++ " SET ".data
        ++ joinSep [','] setValues
        ++ " WHERE rowid IN (SELECT rowid FROM ".data ++ quoteTable tableName
        ++ ' ' :: whereSql ++ " LIMIT ".data ++ escNat n ++ [')'] := by
    simp only [updateQuery]
    rw [if_pos hne]
    apply trimStrEqSelf
    · intro c hc
      have hh : ("UPDATE ".data ++ quoteTable tableName ++ " SET ".data
          ++ joinSep [','] setValues
          ++ " WHERE rowid IN (SELECT rowid FROM ".data ++ quoteTable tableName
          ++ ' ' :: whereSql ++ " LIMIT ".data ++ escNat n ++ [')']).head? = some 'U' := rfl
      rw [hh, Option.some.injEq] at hc
      rw [← hc]
      rfl
    · intro c hc
      rw [getLastAppendSingleton, Option.some.injEq] at hc
      rw [← hc]
      rfl
  refine ⟨hdel, ?_, hupd, ?_⟩
  · intro hsuf
    rw [hdel] at hsuf
    have hshape : "DELETE FROM ".data ++ quoteTable tableName
        ++ ' ' :: ("WHERE rowid IN (SELECT rowid FROM ".data ++ quoteTable tableName
          ++ ' ' :: (if whereCond = [] then whereCond else "WHERE ".data ++ whereCond)
          ++ " LIMIT ".data ++ escNat n ++ [')'])
        = ("DELETE FROM ".data ++ quoteTable tableName
          ++ ' ' :: ("WHERE rowid IN (SELECT rowid FROM ".data ++ quoteTable tableName
            ++ ' ' :: (if whereCond = [] then whereCond else "WHERE ".data ++ whereCond)
            ++ " LIMIT ".data ++ escNat n)) ++ [')'] := by
      simp [List.append_assoc]
    rw [hshape] at hsuf
    have hlast := suffixLastEq hsuf limitPatNeNil
    rcases escNatLastDigit n with ⟨d, hd, hdm⟩
    rw [getLastAppendOf hd, Option.some.injEq] at hlast
    rw [hlast] at hdm
    exact absurd hdm (by decide)
  · intro hsuf
    rw [hupd] at hsuf
    have hlast := suffixLastEq hsuf limitPatNeNil
    rcases escNatLastDigit n with ⟨d, hd, hdm⟩
    rw [getLastAppendOf hd, Option.some.injEq] at hlast
    rw [hlast] at hdm
    exact absurd hdm (by decide)

theorem claim8_witness :
    0 < 2
    ∧ (deleteQuery "users".data "`active` = 1".data (some 2)
        = "DELETE FROM ".data ++ quoteTable "users".data
          ++ ' ' :: ("WHERE rowid IN (SELECT rowid FROM ".data ++ quoteTable "users".data
            ++ ' ' :: (if ("`active` = 1".data : Str) = [] then "`active` = 1".data
                       else "WHERE ".data ++ "`active` = 1".data)
            ++ " LIMIT ".data ++ escNat 2 ++ [')'])
      ∧ ¬ ("LIMIT ".data ++ escNat 2) <:+ deleteQuery "users".data "`active` = 1".data (some 2)
      ∧ updateQuery "users".data ["`name`=$1".data] "WHERE `id` = 3".data (some 2)
        = "UPDATE ".data ++ quoteTable "users".data ++ " SET ".data
          ++ joinSep [','] ["`name`=$1".data]
          ++ " WHERE rowid IN (SELECT rowid FROM ".data ++ quoteTable "users".data
          ++ ' ' :: "WHERE `id` = 3".data ++ " LIMIT ".data ++ escNat 2 ++ [')']
      ∧ ¬ ("LIMIT ".data ++ escNat 2) <:+
          updateQuery "users".data ["`name`=$1".data] "WHERE `id` = 3".data (some 2)) :=
  ⟨by decide,
   claim8_update_delete_limit_subquery "users".data "`active` = 1".data
     "WHERE `id` = 3".data ["`name`=$1".data] 2 (by decide)⟩

/-! ## Claim theorems: JSON injection scanner (C3) -/

/-- C3: on the text `json_extract(col,'$.a'); DROP TABLE users;` the scanner
finds a JSON function call but then hits the bare semicolon token, so
`_checkValidJsonStatement` throws (`none`) instead of classifying the text
as a valid JSON function call. -/
theorem claim3_json_injection_rejected :
    checkValidJsonStatement "json_extract(col,'$.a'); DROP TABLE users;".data = none := by
  decide

end SqliteQG
